import Mathlib

/-! Course-management front end: session client and schedule-conflict detector

A shallow embedding of the two pieces of logic of the front end:

* `src/lib/api.js`: the response interceptor that refreshes the access token
  once on a 401 and replays the requests that were waiting for it;
* `src/modules/browse/StudentBrowse.jsx`: `dayIndex`, `toMinutes`,
  `schedulesOverlap` and the same-term filter of `hasScheduleConflict`.

JavaScript values are modelled by `JSVal` (a missing field, `null`, text or an
integer number). The built-ins the code calls (`String`, `Number`,
`toUpperCase`, `split`, `indexOf`, `||`, `??`) are modelled next to it; their
limits are stated in their doc comments.
-/

namespace CourseMgmt

/-! ## JavaScript values and built-ins -/

/-- A field of a record received from the REST API: absent (`undefined`),
`null`, a string, or an integer-valued number. -/
inductive JSVal where
  | undefined
  | null
  | str (s : String)
  | num (n : Int)
  deriving DecidableEq, Repr

/-- Truthiness (`ToBoolean`): `undefined`, `null`, the empty string and `0` are falsy. -/
def truthy : JSVal → Bool
  | .undefined => false
  | .null => false
  | .str s => s != ""
  | .num n => n != 0

/-- The operator `a || b`. -/
def jsOr (a b : JSVal) : JSVal := if truthy a then a else b

/-- The test `v == null` (true for `null` and `undefined` only). -/
def isNullish : JSVal → Bool
  | .undefined => true
  | .null => true
  | _ => false

/-- The operator `a ?? b`. -/
def jsCoalesce (a b : JSVal) : JSVal := if isNullish a then b else a

/-- The conversion `String(v)`, also used by template literals. Integer numbers
print in decimal (JavaScript switches to exponent form from 10^21 on, which is
outside this model). -/
def jsString : JSVal → String
  | .undefined => "undefined"
  | .null => "null"
  | .str s => s
  | .num n => toString n

/-- The method `toUpperCase()` on the letters `a`..`z`; other characters are
kept (the Unicode case mappings of non-ASCII letters are outside this model). -/
def toUpperCase (s : String) : String := String.mk (s.toList.map Char.toUpper)

/-- The method `xs.indexOf(x)`: the first position of `x`, or `-1`. -/
def jsIndexOf (xs : List String) (x : String) : Int :=
  if x ∈ xs then (xs.indexOf x : Nat) else -1

/-- The method `s.split(sep)` for a one-character separator: always at least one piece. -/
def splitOn (sep : Char) : List Char → List (List Char)
  | [] => [[]]
  | c :: cs =>
    if c = sep then [] :: splitOn sep cs
    else
      match splitOn sep cs with
      | [] => [[c]]
      | p :: ps => (c :: p) :: ps

/-- A JavaScript number as far as `toMinutes` needs it: `NaN` or an integer. -/
inductive JSNum where
  | nan
  | int (z : Int)
  deriving DecidableEq, Repr

/-- The white space that `Number` strips from both ends of a string. -/
def isJSWhiteSpace (c : Char) : Bool :=
  c.toNat ∈ [0x09, 0x0A, 0x0B, 0x0C, 0x0D, 0x20, 0xA0, 0x1680, 0x2000, 0x2001, 0x2002,
    0x2003, 0x2004, 0x2005, 0x2006, 0x2007, 0x2008, 0x2009, 0x200A, 0x2028, 0x2029,
    0x202F, 0x205F, 0x3000, 0xFEFF]

/-- The value of a decimal digit. -/
def digitValue (c : Char) : Option Nat :=
  if 48 ≤ c.toNat ∧ c.toNat ≤ 57 then some (c.toNat - 48) else none

/-- The value of a non-empty run of decimal digits, `acc` being the value read so far. -/
def digitsValue : List Char → Nat → Option Nat
  | [], acc => some acc
  | c :: cs, acc =>
    match digitValue c with
    | some d => digitsValue cs (acc * 10 + d)
    | none => none

/-- An unsigned decimal integer literal. -/
def unsignedValue (cs : List Char) : Option Nat :=
  match cs with
  | [] => none
  | _ :: _ => digitsValue cs 0

/-- The conversion `Number(s)` of a string: white space is stripped, the empty
string is `0`, an optionally signed run of decimal digits is that integer.
Every other string is `NaN` here; the literals with a fraction, an exponent, a
radix prefix or `Infinity` denote other doubles and are outside this model, so
the answer `NaN` is that of `Number` only on the texts that `notNumeric`
describes. -/
def jsNumber (s : List Char) : JSNum :=
  match ((s.dropWhile isJSWhiteSpace).reverse.dropWhile isJSWhiteSpace).reverse with
  | [] => .int 0
  | '+' :: ds =>
    match unsignedValue ds with
    | some n => .int n
    | none => .nan
  | '-' :: ds =>
    match unsignedValue ds with
    | some n => .int (-(n : Int))
    | none => .nan
  | ds =>
    match unsignedValue ds with
    | some n => .int n
    | none => .nan

/-- Whether a character can begin a numeric literal that `Number` reads: a
decimal digit, a sign, a dot, or the `I` of `Infinity`. -/
def startsNumber (c : Char) : Bool :=
  decide (48 ≤ c.toNat ∧ c.toNat ≤ 57) || c == '+' || c == '-' || c == '.' || c == 'I'

/-- A text that `Number` reads as `NaN` whatever its other characters are:
after its leading white space comes a character that begins no numeric
literal (so not a digit, a sign, a dot or `I`). -/
def notNumeric (p : List Char) : Bool :=
  match p.dropWhile isJSWhiteSpace with
  | [] => false
  | c :: _ => !startsNumber c

/-- The expression `x || 0` for a destructured array element: a missing element
(`undefined`), `NaN` and `0` all give `0`. -/
def orZero : Option JSNum → Int
  | none => 0
  | some .nan => 0
  | some (.int z) => z

/-! ## Schedule-conflict detector (`StudentBrowse.jsx`) -/

/-- A meeting block of an offering, as received. -/
structure MeetingBlock where
  dayOfWeek : JSVal
  startTime : JSVal
  endTime : JSVal
  location : JSVal := .undefined
  deriving DecidableEq, Repr

/-- The table `DOW`. -/
def DOW : List String :=
  ["MONDAY", "TUESDAY", "WEDNESDAY", "THURSDAY", "FRIDAY", "SATURDAY", "SUNDAY"]

/-- The helper `dayIndex = (d) => DOW.indexOf(String(d || "").toUpperCase())`. -/
def dayIndex (d : JSVal) : Int :=
  jsIndexOf DOW (toUpperCase (jsString (jsOr d (.str ""))))

/-- The helper `toMinutes`: `none` is its `null`. -/
def toMinutes (t : JSVal) : Option Int :=
  if !truthy t then none
  else
    let parts := (splitOn ':' (jsString t).toList).map jsNumber
    let hh := parts.get? 0
    let mm := parts.get? 1
    some (orZero hh * 60 + orZero mm)

/-- The helper `schedulesOverlap`. -/
def schedulesOverlap (a b : MeetingBlock) : Bool :=
  if dayIndex a.dayOfWeek ≠ dayIndex b.dayOfWeek then false
  else
    match toMinutes a.startTime, toMinutes a.endTime,
        toMinutes b.startTime, toMinutes b.endTime with
    | some aStart, some aEnd, some bStart, some bEnd =>
      decide (max aStart bStart < min aEnd bEnd)
    | _, _, _, _ => false

/-- A term record nested in an offering. -/
structure Term where
  id : JSVal := .undefined
  termId : JSVal := .undefined
  code : JSVal := .undefined
  status : JSVal := .undefined
  deriving DecidableEq, Repr

/-- An offering snapshot as returned by `getOffering`; `term` and `schedules`
may be absent. -/
structure Offering where
  id : JSVal := .undefined
  term : Option Term := none
  schedules : Option (List MeetingBlock) := none
  status : JSVal := .undefined
  termId : JSVal := .undefined
  termCode : JSVal := .undefined
  deriving Repr

/-- Optional property access `t?.f` on a term that may be absent. -/
def termField (t : Option Term) (f : Term → JSVal) : JSVal :=
  match t with
  | none => .undefined
  | some x => f x

/-- The callback of `details.filter(...)` in `hasScheduleConflict`: `d` is an
entry of `details` (`none` when the offering could not be loaded), `target`
the candidate offering. -/
def sameTerm (target : Offering) (d : Option Offering) : Bool :=
  let a := d.bind Offering.term
  let b := target.term
  let aid := jsCoalesce (termField a Term.id) (termField a Term.termId)
  let bid := jsCoalesce (termField b Term.id) (termField b Term.termId)
  if !isNullish aid && !isNullish bid then
    jsString aid == jsString bid
  else if truthy (termField a Term.code) && truthy (termField b Term.code) then
    jsString (termField a Term.code) == jsString (termField b Term.code)
  else false

/-- An enrollment of the student as returned by `listMyEnrollments`: the
nested offering (of which only `id` is read) and the flat `offeringId`. -/
structure Enrollment where
  id : JSVal := .undefined
  offering : Option Offering := none
  offeringId : JSVal := .undefined
  deriving Repr

/-- What `listMyEnrollments()` gives: the call fails, or it resolves with a
value that is not an array, or with an array of enrollments. -/
inductive EnrollmentsReply where
  | failed
  | notArray
  | items (es : List Enrollment)
  deriving Repr

/-- The answers of the REST API during one conflict check. `getOffering id`
is `none` when the request fails; the same id gets the same answer throughout
the check, and a successful answer is an offering object. -/
structure Backend where
  getOffering : JSVal → Option Offering
  listMyEnrollments : EnrollmentsReply

/-- The lookup cache `offeringCache.current`, a `Map` from offering id to
snapshot; the most recent entry comes first. -/
abbrev OfferingCache := List (JSVal × Offering)

/-- The callback `(e) => e.offering?.id ?? e.offeringId`. -/
def enrollmentOfferingId (e : Enrollment) : JSVal :=
  jsCoalesce (match e.offering with
    | none => .undefined
    | some o => o.id) e.offeringId

/-- The function `ensureOfferingDetail`: the cache afterwards and the value
returned (`none` for its `null` and for the `undefined` of a cache miss). -/
def ensureOfferingDetail (api : Backend) (cache : OfferingCache) (id : JSVal) :
    OfferingCache × Option Offering :=
  if !truthy id then (cache, none)
  else
    match cache.lookup id with
    | some o => (cache, some o)
    | none =>
      match api.getOffering id with
      | some o => ((id, o) :: cache, some o)
      | none => (cache, none)

/-- The expression `Promise.all(ids.map((id) => ensureOfferingDetail(id)))`,
the calls taken one after the other. Since the backend answers the same id
the same way, the order in which the requests complete does not change the
values returned. -/
def ensureOfferingDetails (api : Backend) (cache : OfferingCache) :
    List JSVal → OfferingCache × List (Option Offering)
  | [] => (cache, [])
  | id :: ids =>
    let r := ensureOfferingDetail api cache id
    let rs := ensureOfferingDetails api r.1 ids
    (rs.1, r.2 :: rs.2)

/-- The expression `d?.schedules || []` for an entry of `details`. -/
def schedulesOf (d : Option Offering) : List MeetingBlock :=
  match d with
  | none => []
  | some o => o.schedules.getD []

/-- The last expression of `hasScheduleConflict`: some same-term offering has
a meeting block that overlaps a meeting block of the target. -/
def anyOverlap (target : Offering) (sameTermDetails : List (Option Offering)) : Bool :=
  sameTermDetails.any fun d =>
    (schedulesOf d).any fun ds =>
      (target.schedules.getD []).any fun ts => schedulesOverlap ds ts

/-- The function `hasScheduleConflict`: the cache afterwards and the value the
promise resolves with (`none` when it rejects because `listMyEnrollments`
failed). -/
def hasScheduleConflict (api : Backend) (cache : OfferingCache) (targetId : JSVal) :
    OfferingCache × Option Bool :=
  match ensureOfferingDetail api cache targetId with
  | (cache1, none) => (cache1, some false)
  | (cache1, some target) =>
    match api.listMyEnrollments with
    | .failed => (cache1, none)
    | reply =>
      let mine : List Enrollment :=
        match reply with
        | .items es => es
        | _ => []
      let ids := (mine.map enrollmentOfferingId).filter truthy
      let r := ensureOfferingDetails api cache1 ids
      (r.1, some (anyOverlap target (r.2.filter (sameTerm target))))

/-- The helper `termIsActive`. -/
def termIsActive (status : JSVal) : Bool :=
  !decide (toUpperCase (jsString (jsOr status (.str ""))) ∈ ["COMPLETED", "ARCHIVED"])

/-- The helper `offeringOpen`; `o` may be absent (`o?.status`). -/
def offeringOpen (o : Option Offering) : Bool :=
  decide (toUpperCase (jsString (jsOr
    (match o with
      | none => .undefined
      | some x => x.status) (.str ""))) ∈ ["OPEN", "ENROLLING", "IN_PROGRESS"])

/-- The two maps of `buildTermIndex`, each with the entry set last first. -/
structure TermIndex where
  byId : List (String × Term)
  byCode : List (String × Term)

/-- The helper `buildTermIndex`. -/
def buildTermIndex (terms : List Term) : TermIndex :=
  terms.foldl
    (fun idx t =>
      let byId := if !isNullish t.id then (jsString t.id, t) :: idx.byId else idx.byId
      let byCode :=
        if truthy t.code then (toUpperCase (jsString t.code), t) :: idx.byCode else idx.byCode
      { byId := byId, byCode := byCode })
    { byId := [], byCode := [] }

/-- The helper `resolveTermStatus`. -/
def resolveTermStatus (off : Option Offering) (termIndex : TermIndex) : JSVal :=
  let term := off.bind Offering.term
  if truthy (termField term Term.status) then termField term Term.status
  else
    let id := jsCoalesce (termField term Term.id)
      (match off with
        | none => .undefined
        | some o => o.termId)
    let code := jsCoalesce (termField term Term.code)
      (match off with
        | none => .undefined
        | some o => o.termCode)
    let fromId := if !isNullish id then termIndex.byId.lookup (jsString id) else none
    let fromCode :=
      if truthy code then termIndex.byCode.lookup (toUpperCase (jsString code)) else none
    jsCoalesce (jsCoalesce (termField fromId Term.status) (termField fromCode Term.status)) .null

/-- The snackbar `handleEnroll` shows, if any. -/
inductive Notice where
  | notOpen
  | conflict
  | enrolled
  | failed
  deriving DecidableEq, Repr

/-- What one run of `handleEnroll` did: the cache afterwards, how the call of
`hasScheduleConflict` settled (`none` when it was not called, `some none` when
it rejected), the arguments of the calls of `enrollInOffering`, and the
snackbar shown. -/
structure EnrollRun where
  cache : OfferingCache
  conflictCheck : Option (Option Bool)
  enrollCalls : List JSVal
  notice : Option Notice

/-- The function `handleEnroll` for an offering row; `terms` is the loaded
term list and `enrollSucceeds` tells whether `POST /api/student/enrollments`
succeeds when it is issued. The spinner state and the reload after a
successful enrollment are left out. -/
def handleEnroll (api : Backend) (terms : List Term) (enrollSucceeds : Bool)
    (cache : OfferingCache) (offering : Offering) : EnrollRun :=
  if !truthy offering.id then
    { cache := cache, conflictCheck := none, enrollCalls := [], notice := none }
  else
    let st := resolveTermStatus (some offering) (buildTermIndex terms)
    if !termIsActive st || !offeringOpen (some offering) then
      { cache := cache, conflictCheck := none, enrollCalls := [], notice := some .notOpen }
    else
      let cache1 := (ensureOfferingDetail api cache offering.id).1
      let r := hasScheduleConflict api cache1 offering.id
      match r.2 with
      | none =>
        { cache := r.1, conflictCheck := some none, enrollCalls := [], notice := some .failed }
      | some true =>
        { cache := r.1, conflictCheck := some (some true), enrollCalls := [],
          notice := some .conflict }
      | some false =>
        { cache := r.1, conflictCheck := some (some false), enrollCalls := [offering.id],
          notice := some (if enrollSucceeds then .enrolled else .failed) }

/-! ## Session client (`lib/api.js`) -/

/-- The record `{ accessToken, refreshToken }`. -/
structure Tokens where
  accessToken : JSVal
  refreshToken : JSVal
  deriving DecidableEq, Repr

/-- The keys of `localStorage` the application uses. `auth_tokens` is the key
of `lib/api.js`; its JSON text is identified with the record it parses to.
The keys `accessToken` and `refreshToken` are those of `auth/AuthContext.jsx`. -/
structure LocalStorage where
  auth_tokens : Option Tokens := none
  accessToken : Option String := none
  refreshToken : Option String := none
  deriving DecidableEq, Repr

/-- The request config that axios hands back in an error: what identifies the
request, its `Authorization` header and the mark `_retry`. -/
structure RequestConfig where
  method : String
  url : String
  data : String
  authorization : Option String
  _retry : Bool
  deriving DecidableEq, Repr

/-- The `response` of an error. -/
structure Response where
  status : Nat
  deriving DecidableEq, Repr

/-- An error as the response interceptor receives it; `response` is absent on
a transport failure. -/
structure AxiosError where
  response : Option Response
  config : RequestConfig
  deriving DecidableEq, Repr

/-- The body `res.data` of a successful refresh call. -/
structure RefreshData where
  accessToken : JSVal
  refreshToken : JSVal
  deriving DecidableEq, Repr

/-- The module state of `lib/api.js` together with what it has done so far.
A continuation `{ resolve, reject }` in `refreshQueue` is represented by the
config its `then` callback replays. `refreshCalls` lists the `Authorization`
header of every `axios.post(.../api/auth/refresh)`, `replayed` every config
passed to `api(config)` by the interceptor, `queueRejected` every queued
continuation rejected together with its error. -/
structure ClientState where
  localStorage : LocalStorage
  defaultAuthorization : Option String
  isRefreshing : Bool
  refreshQueue : List RequestConfig
  refreshCalls : List String
  replayed : List RequestConfig
  queueRejected : List (RequestConfig × AxiosError)
  deriving DecidableEq, Repr

/-- How one invocation of the response interceptor leaves its promise. -/
inductive Outcome where
  /-- The promise is rejected with the error (`throw`). -/
  | rejected (error : AxiosError)
  /-- The promise waits for the continuation pushed to `refreshQueue`. -/
  | queued (config : RequestConfig)
  /-- The invocation is suspended at `await axios.post(...)`; these are the
  variables its continuation closes over. -/
  | awaitingRefresh (config : RequestConfig) (refreshToken : JSVal)
  deriving DecidableEq, Repr

/-- The function `setAuthHeader` of `lib/api.js`. -/
def setAuthHeader (st : ClientState) (token : JSVal) : ClientState :=
  if truthy token then { st with defaultAuthorization := some ("Bearer " ++ jsString token) }
  else { st with defaultAuthorization := none }

/-- The function `getTokens`. -/
def getTokens (ls : LocalStorage) : Tokens :=
  match ls.auth_tokens with
  | some t => t
  | none => { accessToken := .null, refreshToken := .null }

/-- The function `setTokens`. -/
def setTokens (st : ClientState) (t : Tokens) : ClientState :=
  setAuthHeader { st with localStorage := { st.localStorage with auth_tokens := some t } }
    t.accessToken

/-- The function `clearTokens`. -/
def clearTokens (st : ClientState) : ClientState :=
  setAuthHeader { st with localStorage := { st.localStorage with auth_tokens := none } } .null

/-- The statements `config.headers.Authorization = "Bearer " + token; return api(config)`:
the config that is replayed. -/
def replayWith (config : RequestConfig) (token : JSVal) : RequestConfig :=
  { config with authorization := some ("Bearer " ++ jsString token) }

/-- The statement `config._retry = true`. -/
def markRetried (config : RequestConfig) : RequestConfig := { config with _retry := true }

/-- The rejection handler of `api.interceptors.response.use`, up to its first
suspension point. -/
def responseRejected (st : ClientState) (error : AxiosError) : ClientState × Outcome :=
  match error.response with
  | none => (st, .rejected error)
  | some response =>
    if response.status = 401 ∧ error.config._retry = false then
      let config := markRetried error.config
      let refreshToken := (getTokens st.localStorage).refreshToken
      if !truthy refreshToken then
        (clearTokens st, .rejected { error with config := config })
      else if st.isRefreshing then
        ({ st with refreshQueue := st.refreshQueue ++ [config] }, .queued config)
      else
        ({ st with
            isRefreshing := true
            refreshCalls := st.refreshCalls ++ ["Bearer " ++ jsString refreshToken] },
          .awaitingRefresh config refreshToken)
    else (st, .rejected error)

/-- The continuation of the interceptor after `await axios.post(...)` when the
refresh call succeeds with body `data`: the rest of the `try` block, followed
by the `then` callbacks of the continuations it resolves. -/
def refreshFulfilled (st : ClientState) (config : RequestConfig) (refreshToken : JSVal)
    (data : RefreshData) : ClientState :=
  let newAccess := data.accessToken
  let newRefresh := data.refreshToken
  let st1 := setTokens st
    { accessToken := newAccess, refreshToken := jsOr newRefresh refreshToken }
  { st1 with
    refreshQueue := []
    isRefreshing := false
    replayed := st1.replayed ++ replayWith config newAccess ::
      st1.refreshQueue.map (fun c => replayWith c newAccess) }

/-- The continuation of the interceptor after `await axios.post(...)` when the
refresh call fails with `e`: the `catch` block. -/
def refreshRejected (st : ClientState) (e : AxiosError) : ClientState × Outcome :=
  (clearTokens { st with
      queueRejected := st.queueRejected ++ st.refreshQueue.map (fun c => (c, e))
      refreshQueue := []
      isRefreshing := false },
    .rejected e)

/-- The interceptor run once for each error of a list, in order, with no
refresh call settling in between. -/
def handleAll (st : ClientState) : List AxiosError → ClientState × List Outcome
  | [] => (st, [])
  | e :: es =>
    let r := responseRejected st e
    let rs := handleAll r.1 es
    (rs.1, r.2 :: rs.2)

/-! ## Authentication context (`auth/AuthContext.jsx`)

The context keeps its own copy of the tokens under the keys `accessToken` and
`refreshToken` and sets the same default `Authorization` header of `api`. -/

/-- The body `data` of a login response, with the fields `login` reads. -/
structure LoginData where
  accessToken : JSVal := .undefined
  token : JSVal := .undefined
  access_token : JSVal := .undefined
  refreshToken : JSVal := .undefined
  refresh_token : JSVal := .undefined
  deriving DecidableEq, Repr

namespace AuthContext

/-- The expression `localStorage.getItem(key) || null` for a stored text. -/
def itemOrNull (item : Option String) : JSVal :=
  match item with
  | none => .null
  | some s => jsOr (.str s) .null

/-- The function `getStoredTokens`. -/
def getStoredTokens (ls : LocalStorage) : Tokens :=
  { accessToken := itemOrNull ls.accessToken, refreshToken := itemOrNull ls.refreshToken }

/-- The function `setAuthHeader` of `AuthContext.jsx`. -/
def setAuthHeader (st : ClientState) (accessToken : JSVal) : ClientState :=
  if truthy accessToken then
    { st with defaultAuthorization := some ("Bearer " ++ jsString accessToken) }
  else { st with defaultAuthorization := none }

/-- The function `setTokens` of `AuthContext.jsx`: each token that is not
nullish is stored, as text, under its own key. -/
def setTokens (st : ClientState) (t : Tokens) : ClientState :=
  let ls1 : LocalStorage :=
    if !isNullish t.accessToken then
      { st.localStorage with accessToken := some (jsString t.accessToken) }
    else st.localStorage
  let ls2 : LocalStorage :=
    if !isNullish t.refreshToken then
      { ls1 with refreshToken := some (jsString t.refreshToken) }
    else ls1
  setAuthHeader { st with localStorage := ls2 } t.accessToken

/-- The function `clearTokens` of `AuthContext.jsx`. -/
def clearTokens (st : ClientState) : ClientState :=
  setAuthHeader
    { st with localStorage := { st.localStorage with accessToken := none, refreshToken := none } }
    .null

/-- The function `login` once `POST /api/auth/login` has answered with `data`:
the tokens it picks from the body and stores. -/
def login (st : ClientState) (data : LoginData) : ClientState :=
  let accessToken := jsOr (jsOr data.accessToken data.token) data.access_token
  let refreshToken := jsOr (jsOr data.refreshToken data.refresh_token) .null
  setTokens st { accessToken := accessToken, refreshToken := refreshToken }

/-- The function `logout`. -/
def logout (st : ClientState) : ClientState := clearTokens st

end AuthContext

/-- The states the session client can reach: `lib/api.js` is loaded over any
stored data with no refresh in flight and an empty queue; then interceptor
invocations, settlements of a refresh call, logins and logouts follow in any
order. -/
inductive Reachable : ClientState → Prop where
  | loaded (ls : LocalStorage) (header : Option String) :
    Reachable
      { localStorage := ls, defaultAuthorization := header, isRefreshing := false,
        refreshQueue := [], refreshCalls := [], replayed := [], queueRejected := [] }
  | rejected (st : ClientState) (error : AxiosError) :
    Reachable st → Reachable (responseRejected st error).1
  | fulfilled (st : ClientState) (config : RequestConfig) (refreshToken : JSVal)
    (data : RefreshData) :
    Reachable st → Reachable (refreshFulfilled st config refreshToken data)
  | failed (st : ClientState) (e : AxiosError) :
    Reachable st → Reachable (refreshRejected st e).1
  | login (st : ClientState) (data : LoginData) :
    Reachable st → Reachable (AuthContext.login st data)
  | logout (st : ClientState) : Reachable st → Reachable (AuthContext.logout st)

/-- The destructuring
`const { accessToken: newAccess, refreshToken: newRefresh } = res.data` of the
refresh response: of a token response body only these two fields are read. -/
def readRefreshBody (body : LoginData) : RefreshData :=
  { accessToken := body.accessToken, refreshToken := body.refreshToken }

/-! ## The JSON text of the token record

`setTokens` stores `JSON.stringify({ accessToken, refreshToken })` and
`getTokens` reads it back with `JSON.parse`. The definitions below give that
text and its parsing for records whose fields are absent, `null` or strings;
they justify keeping the parsed record in `LocalStorage.auth_tokens`. -/

/-- A lower-case hexadecimal digit. -/
def hexDigit (n : Nat) : Char :=
  if n < 10 then Char.ofNat (48 + n) else Char.ofNat (87 + n)

/-- The value of a hexadecimal digit, in either case. -/
def hexValue (c : Char) : Option Nat :=
  if 48 ≤ c.toNat ∧ c.toNat ≤ 57 then some (c.toNat - 48)
  else if 97 ≤ c.toNat ∧ c.toNat ≤ 102 then some (c.toNat - 87)
  else if 65 ≤ c.toNat ∧ c.toNat ≤ 70 then some (c.toNat - 55)
  else none

/-- How `JSON.stringify` writes one character of a string. -/
def jsonEscapeChar (c : Char) : List Char :=
  if c = '"' then ['\\', '"']
  else if c = '\\' then ['\\', '\\']
  else if c = Char.ofNat 8 then ['\\', 'b']
  else if c = Char.ofNat 9 then ['\\', 't']
  else if c = Char.ofNat 10 then ['\\', 'n']
  else if c = Char.ofNat 12 then ['\\', 'f']
  else if c = Char.ofNat 13 then ['\\', 'r']
  else if c.toNat < 32 then
    ['\\', 'u', '0', '0', hexDigit (c.toNat / 16), hexDigit (c.toNat % 16)]
  else [c]

/-- The quoted JSON text of a string. -/
def jsonQuote (s : List Char) : List Char :=
  '"' :: (s.flatMap jsonEscapeChar ++ ['"'])

/-- The character a one-letter escape stands for. -/
def simpleEscape (c : Char) : Option Char :=
  if c = '"' then some '"'
  else if c = '\\' then some '\\'
  else if c = '/' then some '/'
  else if c = 'b' then some (Char.ofNat 8)
  else if c = 't' then some (Char.ofNat 9)
  else if c = 'n' then some (Char.ofNat 10)
  else if c = 'f' then some (Char.ofNat 12)
  else if c = 'r' then some (Char.ofNat 13)
  else none

/-- Where the reader of a JSON string stands: in plain text, right after a
backslash, or inside a `\u` escape with `left` digits to go. -/
inductive StringMode where
  | plain
  | escaped
  | hex (left : Nat) (acc : Nat)

/-- The reader of a JSON string after its opening quote: the characters of the
string and the input left after the closing quote; `none` is a syntax error.
Escapes of surrogate code units are outside this model. -/
def parseJsonString : StringMode → List Char → Option (List Char × List Char)
  | _, [] => none
  | .plain, c :: r =>
    if c = '"' then some ([], r)
    else if c = '\\' then parseJsonString .escaped r
    else if c.toNat < 32 then none
    else (parseJsonString .plain r).map fun p => (c :: p.1, p.2)
  | .escaped, c :: r =>
    if c = 'u' then parseJsonString (.hex 4 0) r
    else
      match simpleEscape c with
      | some ch => (parseJsonString .plain r).map fun p => (ch :: p.1, p.2)
      | none => none
  | .hex 0 _, _ :: _ => none
  | .hex (n + 1) acc, c :: r =>
    match hexValue c with
    | none => none
    | some v =>
      if n = 0 then
        (parseJsonString .plain r).map fun p => (Char.ofNat (acc * 16 + v) :: p.1, p.2)
      else parseJsonString (.hex n (acc * 16 + v)) r

/-- The JSON text of a field value; an absent field has none and is left out. -/
def jsonValue : JSVal → Option (List Char)
  | .undefined => none
  | .null => some ['n', 'u', 'l', 'l']
  | .str s => some (jsonQuote s.toList)
  | .num n => some (toString n).toList

/-- The member `"key":value`, if the value is present. -/
def jsonMember (key : String) (v : JSVal) : List (List Char) :=
  match jsonValue v with
  | none => []
  | some text => [jsonQuote key.toList ++ ':' :: text]

/-- The text `JSON.stringify({ accessToken, refreshToken })`. -/
def jsonStringifyTokens (t : Tokens) : String :=
  String.mk ('{' ::
    (([','].intercalate
      (jsonMember "accessToken" t.accessToken ++ jsonMember "refreshToken" t.refreshToken))
    ++ ['}']))

/-- The reader of a JSON value that is `null` or a string. -/
def parseJsonValue : List Char → Option (JSVal × List Char)
  | 'n' :: 'u' :: 'l' :: 'l' :: r => some (.null, r)
  | '"' :: r => (parseJsonString .plain r).map fun p => (.str (String.mk p.1), p.2)
  | _ => none

/-- The reader of the members of a JSON object after its opening brace, up to
and including the closing brace; `fuel` bounds the number of members. -/
def parseJsonMembers : Nat → List Char → Option (List (String × JSVal) × List Char)
  | 0, _ => none
  | fuel + 1, input =>
    match input with
    | '"' :: r =>
      match parseJsonString .plain r with
      | some (key, ':' :: r1) =>
        match parseJsonValue r1 with
        | some (v, ',' :: r2) =>
          (parseJsonMembers fuel r2).map fun p => ((String.mk key, v) :: p.1, p.2)
        | some (v, '}' :: r2) => some ([(String.mk key, v)], r2)
        | _ => none
      | _ => none
    | _ => none

/-- The reader `JSON.parse` on the text of an object without white space whose
members are `null` or strings: the members in order. -/
def parseJsonObject (s : List Char) : Option (List (String × JSVal)) :=
  match s with
  | '{' :: r =>
    if r = ['}'] then some []
    else
      match parseJsonMembers r.length r with
      | some (ms, []) => some ms
      | _ => none
  | _ => none

/-- The property `key` of a parsed object: the last member of that name, or
`undefined`. -/
def jsonField (ms : List (String × JSVal)) (key : String) : JSVal :=
  (ms.reverse.lookup key).getD .undefined

/-- The function `getTokens` on the stored text: `raw ? JSON.parse(raw) : ...`;
`none` when `JSON.parse` throws. -/
def getTokensText (raw : Option String) : Option Tokens :=
  match raw with
  | none => some { accessToken := .null, refreshToken := .null }
  | some s =>
    if s = "" then some { accessToken := .null, refreshToken := .null }
    else (parseJsonObject s.toList).map fun ms =>
      { accessToken := jsonField ms "accessToken", refreshToken := jsonField ms "refreshToken" }

/-! ## Statement vocabulary and sample data -/

/-- The text `HH:MM` of hour `h` and minute `m`, two decimal digits each. -/
def hhmm (h m : Nat) : String :=
  String.mk [Nat.digitChar (h / 10), Nat.digitChar (h % 10), ':',
    Nat.digitChar (m / 10), Nat.digitChar (m % 10)]

/-- A missing time or day: `undefined`, `null` or the empty string. -/
def isMissing (v : JSVal) : Prop := v = .undefined ∨ v = .null ∨ v = .str ""

/-- A non-empty text none of whose colon-separated parts can be a number:
each part, after its leading white space, begins with a character that begins
no numeric literal, as in `abc` or `ab:cd`. -/
def unparseable (s : String) : Prop :=
  s ≠ "" ∧ ∀ p ∈ splitOn ':' s.toList, notNumeric p = true

/-- An idle client holding access token `A` and refresh token `R`. -/
def sampleIdle : ClientState :=
  { localStorage := { auth_tokens := some { accessToken := .str "A", refreshToken := .str "R" } }
    defaultAuthorization := some "Bearer A"
    isRefreshing := false
    refreshQueue := []
    refreshCalls := []
    replayed := []
    queueRejected := [] }

/-- A `GET` request to `url` sent with access token `A`. -/
def sampleRequest (url : String) (retried : Bool) : RequestConfig :=
  { method := "get", url := url, data := "", authorization := some "Bearer A", _retry := retried }

/-- A 401 answer to `sampleRequest url retried`. -/
def sample401 (url : String) (retried : Bool) : AxiosError :=
  { response := some { status := 401 }, config := sampleRequest url retried }

/-- A meeting block from texts. -/
def block (day start stop : String) : MeetingBlock :=
  { dayOfWeek := .str day, startTime := .str start, endTime := .str stop }

/-- An existing offering, id `1`, of term `FALL24` with a Monday 09:00-10:30 block. -/
def sampleExisting : Offering :=
  { id := .num 1, term := some { code := .str "FALL24" },
    schedules := some [block "MONDAY" "09:00" "10:30"] }

/-- A candidate offering, id `2`, of term `code` with a Monday 10:00-11:00 block. -/
def sampleCandidate (code : String) : Offering :=
  { id := .num 2, term := some { code := .str code },
    schedules := some [block "MONDAY" "10:00" "11:00"] }

/-- A backend that knows the offerings `1` and `2`, fails on every other id, and
lists the enrollments `mine`. -/
def sampleBackend (code : String) (mine : List Enrollment) : Backend :=
  { getOffering := fun id =>
      if id = .num 1 then some sampleExisting
      else if id = .num 2 then some (sampleCandidate code)
      else none
    listMyEnrollments := .items mine }

/-- A client just loaded over an empty store. -/
def sampleFresh : ClientState :=
  { localStorage := {}
    defaultAuthorization := none
    isRefreshing := false
    refreshQueue := []
    refreshCalls := []
    replayed := []
    queueRejected := [] }

/-- An open offering row, id `2`, of term `code` with a Monday 10:00-11:00 block. -/
def sampleRow (code : String) : Offering :=
  { id := .num 2, term := some { code := .str code, status := .str "ENROLLING" },
    schedules := some [block "MONDAY" "10:00" "11:00"], status := .str "OPEN" }

/-! ## Session client: single-flight refresh and the retried mark -/

theorem responseRejected_enqueue (st : ClientState) (x : AxiosError)
    (hst : st.isRefreshing = true)
    (hrt : truthy (getTokens st.localStorage).refreshToken = true)
    (h401 : x.response.map Response.status = some 401) (hnew : x.config._retry = false) :
    responseRejected st x =
      ({ st with refreshQueue := st.refreshQueue ++ [markRetried x.config] },
        .queued (markRetried x.config)) := by
  cases hx : x.response with
  | none => simp [hx] at h401
  | some r =>
    have hr : r.status = 401 := by simpa [hx] using h401
    simp [responseRejected, hx, hr, hnew, hrt, hst]

theorem responseRejected_start (st : ClientState) (x : AxiosError)
    (hst : st.isRefreshing = false)
    (hrt : truthy (getTokens st.localStorage).refreshToken = true)
    (h401 : x.response.map Response.status = some 401) (hnew : x.config._retry = false) :
    responseRejected st x =
      ({ st with
          isRefreshing := true
          refreshCalls := st.refreshCalls ++
            ["Bearer " ++ jsString (getTokens st.localStorage).refreshToken] },
        .awaitingRefresh (markRetried x.config) (getTokens st.localStorage).refreshToken) := by
  cases hx : x.response with
  | none => simp [hx] at h401
  | some r =>
    have hr : r.status = 401 := by simpa [hx] using h401
    simp [responseRejected, hx, hr, hnew, hrt, hst]

theorem handleAll_enqueue (es : List AxiosError) (st : ClientState)
    (hst : st.isRefreshing = true)
    (hrt : truthy (getTokens st.localStorage).refreshToken = true)
    (h : ∀ x ∈ es, x.response.map Response.status = some 401 ∧ x.config._retry = false) :
    handleAll st es =
      ({ st with refreshQueue := st.refreshQueue ++ es.map (fun x => markRetried x.config) },
        es.map (fun x => .queued (markRetried x.config))) := by
  induction es generalizing st with
  | nil => simp [handleAll]
  | cons x xs ih =>
    have hx := h x (List.mem_cons_self x xs)
    have hxs : ∀ y ∈ xs, y.response.map Response.status = some 401 ∧ y.config._retry = false :=
      fun y hy => h y (List.mem_cons_of_mem x hy)
    have step := ih { st with refreshQueue := st.refreshQueue ++ [markRetried x.config] }
      hst hrt hxs
    rw [handleAll, responseRejected_enqueue st x hst hrt hx.1 hx.2, step]
    simp

theorem handleAll_single_flight (st : ClientState) (e : AxiosError) (es : List AxiosError)
    (hidle : st.isRefreshing = false)
    (hrt : truthy (getTokens st.localStorage).refreshToken = true)
    (h : ∀ x ∈ e :: es, x.response.map Response.status = some 401 ∧ x.config._retry = false) :
    handleAll st (e :: es) =
      ({ st with
          isRefreshing := true
          refreshCalls := st.refreshCalls ++
            ["Bearer " ++ jsString (getTokens st.localStorage).refreshToken]
          refreshQueue := st.refreshQueue ++ es.map (fun x => markRetried x.config) },
        .awaitingRefresh (markRetried e.config) (getTokens st.localStorage).refreshToken ::
          es.map (fun x => .queued (markRetried x.config))) := by
  have he := h e (List.mem_cons_self e es)
  have hes : ∀ y ∈ es, y.response.map Response.status = some 401 ∧ y.config._retry = false :=
    fun y hy => h y (List.mem_cons_of_mem e hy)
  have step := handleAll_enqueue es
    { st with
      isRefreshing := true
      refreshCalls := st.refreshCalls ++
        ["Bearer " ++ jsString (getTokens st.localStorage).refreshToken] }
    rfl hrt hes
  rw [handleAll, responseRejected_start st e hidle hrt he.1 he.2, step]

/-- C1. Single-flight refresh. From a state with a stored refresh token and
`isRefreshing = false`, let `1 + es.length` not-yet-retried requests each
receive a 401 and let all interceptor invocations run before the refresh call
settles. Then the first invocation sets `isRefreshing` and suspends on the
refresh call, and every other one only enqueues its marked config; exactly
one refresh call is added, carrying the stored refresh token; and when that
call succeeds with access token `T` no further refresh call is made and the
configs passed to `api(config)` are, in order, the first request, what the
queue held before (nothing in a reachable idle state), and the other
requests, each of the requests marked as retried and all with
`Authorization` set to `Bearer T`. -/
theorem single_flight_refresh (st : ClientState) (e : AxiosError) (es : List AxiosError)
    (T : String) (newRefresh : JSVal)
    (hidle : st.isRefreshing = false)
    (hrt : truthy (getTokens st.localStorage).refreshToken = true)
    (h : ∀ x ∈ e :: es, x.response.map Response.status = some 401 ∧ x.config._retry = false) :
    (handleAll st (e :: es)).2 =
        .awaitingRefresh (markRetried e.config) (getTokens st.localStorage).refreshToken ::
          es.map (fun x => .queued (markRetried x.config)) ∧
      (handleAll st (e :: es)).1.isRefreshing = true ∧
      (handleAll st (e :: es)).1.refreshQueue =
        st.refreshQueue ++ es.map (fun x => markRetried x.config) ∧
      (handleAll st (e :: es)).1.refreshCalls =
        st.refreshCalls ++ ["Bearer " ++ jsString (getTokens st.localStorage).refreshToken] ∧
      (refreshFulfilled (handleAll st (e :: es)).1 (markRetried e.config)
          (getTokens st.localStorage).refreshToken
          { accessToken := .str T, refreshToken := newRefresh }).refreshCalls =
        st.refreshCalls ++ ["Bearer " ++ jsString (getTokens st.localStorage).refreshToken] ∧
      (refreshFulfilled (handleAll st (e :: es)).1 (markRetried e.config)
          (getTokens st.localStorage).refreshToken
          { accessToken := .str T, refreshToken := newRefresh }).replayed =
        st.replayed ++
          (markRetried e.config :: (st.refreshQueue ++ es.map (fun x => markRetried x.config))).map
            (fun c => { c with authorization := some ("Bearer " ++ T) }) := by
  rw [handleAll_single_flight st e es hidle hrt h]
  refine ⟨rfl, rfl, rfl, rfl, ?_, ?_⟩
  · simp only [refreshFulfilled, setTokens, setAuthHeader]
    split <;> rfl
  · simp only [refreshFulfilled, setTokens, setAuthHeader]
    split <;> simp [replayWith, markRetried, jsString, Function.comp_def]

theorem single_flight_refresh_witness :
    sampleIdle.isRefreshing = false ∧
      (handleAll sampleIdle
          [sample401 "/a" false, sample401 "/b" false, sample401 "/c" false]).1.refreshCalls =
        ["Bearer R"] ∧
      (refreshFulfilled
          (handleAll sampleIdle
            [sample401 "/a" false, sample401 "/b" false, sample401 "/c" false]).1
          (markRetried (sample401 "/a" false).config) (getTokens sampleIdle.localStorage).refreshToken
          { accessToken := .str "T", refreshToken := .undefined }).replayed =
        [{ sampleRequest "/a" true with authorization := some "Bearer T" },
          { sampleRequest "/b" true with authorization := some "Bearer T" },
          { sampleRequest "/c" true with authorization := some "Bearer T" }] :=
  have h := single_flight_refresh sampleIdle (sample401 "/a" false)
    [sample401 "/b" false, sample401 "/c" false] "T" .undefined rfl rfl (by decide)
  ⟨rfl, h.2.2.2.1.trans (by decide), h.2.2.2.2.2.trans (by decide)⟩

/-- C2. No double-retry. An error whose response status is 401 and whose
config already carries the mark `_retry` is rethrown as it is and the state is
left as it was: no refresh call, no continuation enqueued, no replay. The mark
survives a replay, so a 401 answer to the replay of such a config, under any
new token and in any state, is rethrown in the same way. -/
theorem no_double_retry (st : ClientState) (error : AxiosError)
    (h401 : error.response.map Response.status = some 401)
    (hretry : error.config._retry = true) :
    responseRejected st error = (st, .rejected error) ∧
      ∀ (st2 : ClientState) (token : JSVal),
        responseRejected st2 { error with config := replayWith error.config token } =
          (st2, .rejected { error with config := replayWith error.config token }) := by
  cases hx : error.response with
  | none => simp [hx] at h401
  | some r =>
    constructor
    · simp [responseRejected, hx, hretry]
    · intro st2 token
      simp [responseRejected, hx, hretry, replayWith]

theorem no_double_retry_witness :
    responseRejected sampleIdle (sample401 "/a" true) =
      (sampleIdle, .rejected (sample401 "/a" true)) :=
  (no_double_retry sampleIdle (sample401 "/a" true) rfl rfl).1

/-! ## Schedule-conflict detector: days -/

theorem dayIndex_str (s : String) : dayIndex (.str s) = jsIndexOf DOW (toUpperCase s) := by
  unfold dayIndex jsOr
  by_cases hs : s = ""
  · subst hs
    rfl
  · have : truthy (.str s) = true := by simp [truthy, hs]
    simp [this, jsString]

theorem jsIndexOf_of_not_mem (xs : List String) (x : String) (h : x ∉ xs) :
    jsIndexOf xs x = -1 := by
  simp [jsIndexOf, h]

theorem jsIndexOf_nonneg_of_mem (xs : List String) (x : String) (h : x ∈ xs) :
    0 ≤ jsIndexOf xs x := by
  simp [jsIndexOf, h]

theorem jsIndexOf_DOW_inj (u v : String) (hu : u ∈ DOW) (hv : v ∈ DOW) :
    jsIndexOf DOW u = jsIndexOf DOW v ↔ u = v := by
  constructor
  · intro h
    simp only [DOW, List.mem_cons, List.mem_singleton, List.not_mem_nil, or_false] at hu hv
    rcases hu with rfl | rfl | rfl | rfl | rfl | rfl | rfl <;>
      rcases hv with rfl | rfl | rfl | rfl | rfl | rfl | rfl <;>
      first
        | rfl
        | (exfalso; revert h; decide)
  · intro h
    rw [h]

/-! ## Schedule-conflict detector: times -/

theorem digitChar_ne_colon (a : Nat) (ha : a < 10) : Nat.digitChar a ≠ ':' := by
  interval_cases a <;> decide

theorem jsNumber_two_digits (a b : Nat) (ha : a < 10) (hb : b < 10) :
    jsNumber [Nat.digitChar a, Nat.digitChar b] = .int ((a * 10 + b : Nat) : Int) := by
  interval_cases a <;> interval_cases b <;> rfl

theorem splitOn_hhmm (c1 c2 c3 c4 : Char) (h1 : c1 ≠ ':') (h2 : c2 ≠ ':') (h3 : c3 ≠ ':')
    (h4 : c4 ≠ ':') : splitOn ':' [c1, c2, ':', c3, c4] = [[c1, c2], [c3, c4]] := by
  simp [splitOn, h1, h2, h3, h4]

theorem toMinutes_hhmm (h m : Nat) (hh : h < 100) (hm : m < 100) :
    toMinutes (.str (hhmm h m)) = some ((h * 60 + m : Nat) : Int) := by
  have e1 : h / 10 < 10 := by omega
  have e2 : h % 10 < 10 := by omega
  have e3 : m / 10 < 10 := by omega
  have e4 : m % 10 < 10 := by omega
  have hne : truthy (.str (hhmm h m)) = true := by
    simp [truthy, hhmm, String.ext_iff]
  have hl : (hhmm h m).toList = [Nat.digitChar (h / 10), Nat.digitChar (h % 10), ':',
      Nat.digitChar (m / 10), Nat.digitChar (m % 10)] := rfl
  simp only [toMinutes, hne, jsString, hl]
  rw [splitOn_hhmm _ _ _ _ (digitChar_ne_colon _ e1) (digitChar_ne_colon _ e2)
    (digitChar_ne_colon _ e3) (digitChar_ne_colon _ e4)]
  simp [jsNumber_two_digits _ _ e1 e2, jsNumber_two_digits _ _ e3 e4, orZero]
  omega

theorem toMinutes_of_isMissing (v : JSVal) (h : isMissing v) : toMinutes v = none := by
  rcases h with rfl | rfl | rfl <;> rfl

/-- C3. For two meeting blocks whose days are recognised day names in any
letter case and whose times are well-formed `HH:MM` texts, `schedulesOverlap`
is true exactly when the days are equal ignoring case and
`max(startA, startB) < min(endA, endB)`, each time counted as `HH * 60 + MM`
minutes since midnight. -/
theorem schedulesOverlap_iff (dayA dayB : String) (locA locB : JSVal)
    (h1 m1 h2 m2 h3 m3 h4 m4 : Nat)
    (hdayA : toUpperCase dayA ∈ DOW) (hdayB : toUpperCase dayB ∈ DOW)
    (hh1 : h1 < 24) (hm1 : m1 < 60) (hh2 : h2 < 24) (hm2 : m2 < 60)
    (hh3 : h3 < 24) (hm3 : m3 < 60) (hh4 : h4 < 24) (hm4 : m4 < 60) :
    schedulesOverlap
        { dayOfWeek := .str dayA, startTime := .str (hhmm h1 m1), endTime := .str (hhmm h2 m2),
          location := locA }
        { dayOfWeek := .str dayB, startTime := .str (hhmm h3 m3), endTime := .str (hhmm h4 m4),
          location := locB } = true ↔
      toUpperCase dayA = toUpperCase dayB ∧
        max (h1 * 60 + m1) (h3 * 60 + m3) < min (h2 * 60 + m2) (h4 * 60 + m4) := by
  simp only [schedulesOverlap, dayIndex_str, ne_eq, jsIndexOf_DOW_inj _ _ hdayA hdayB,
    toMinutes_hhmm h1 m1 (by omega) (by omega), toMinutes_hhmm h2 m2 (by omega) (by omega),
    toMinutes_hhmm h3 m3 (by omega) (by omega), toMinutes_hhmm h4 m4 (by omega) (by omega)]
  by_cases hd : toUpperCase dayA = toUpperCase dayB
  · simp only [hd, not_true_eq_false, if_false, decide_eq_true_eq, true_and]
    omega
  · simp [hd]

theorem schedulesOverlap_iff_witness :
    (schedulesOverlap
        { dayOfWeek := .str "Monday", startTime := .str (hhmm 9 0), endTime := .str (hhmm 10 30),
          location := .undefined }
        { dayOfWeek := .str "MONDAY", startTime := .str (hhmm 10 0), endTime := .str (hhmm 11 0),
          location := .str "B2" } = true ↔
      toUpperCase "Monday" = toUpperCase "MONDAY" ∧
        max (9 * 60 + 0) (10 * 60 + 0) < min (10 * 60 + 30) (11 * 60 + 0)) ∧
      hhmm 10 30 = "10:30" :=
  ⟨schedulesOverlap_iff "Monday" "MONDAY" .undefined (.str "B2") 9 0 10 30 10 0 11 0
    (by decide) (by decide) (by decide) (by decide) (by decide) (by decide) (by decide)
    (by decide) (by decide) (by decide), by decide⟩

/-! ## Schedule-conflict detector: overlap -/

theorem schedulesOverlap_eq (a b : MeetingBlock) :
    schedulesOverlap a b =
      (decide (dayIndex a.dayOfWeek = dayIndex b.dayOfWeek) &&
        match toMinutes a.startTime, toMinutes a.endTime,
            toMinutes b.startTime, toMinutes b.endTime with
        | some aStart, some aEnd, some bStart, some bEnd =>
          decide (max aStart bStart < min aEnd bEnd)
        | _, _, _, _ => false) := by
  unfold schedulesOverlap
  by_cases hd : dayIndex a.dayOfWeek = dayIndex b.dayOfWeek <;> simp [hd]

/-- C4. Overlap symmetry: `schedulesOverlap a b = schedulesOverlap b a` for
all meeting blocks, whatever their day and time values are (missing,
malformed or well-formed). -/
theorem schedulesOverlap_symm (a b : MeetingBlock) :
    schedulesOverlap a b = schedulesOverlap b a := by
  rw [schedulesOverlap_eq a b, schedulesOverlap_eq b a]
  have hday : decide (dayIndex a.dayOfWeek = dayIndex b.dayOfWeek) =
      decide (dayIndex b.dayOfWeek = dayIndex a.dayOfWeek) := by
    by_cases hd : dayIndex a.dayOfWeek = dayIndex b.dayOfWeek
    · simp [hd]
    · have hd2 : ¬ dayIndex b.dayOfWeek = dayIndex a.dayOfWeek := fun h => hd h.symm
      simp [hd, hd2]
  rw [hday]
  congr 1
  cases toMinutes a.startTime <;> cases toMinutes a.endTime <;>
    cases toMinutes b.startTime <;> cases toMinutes b.endTime <;>
    first
      | rfl
      | (rename_i w x y z
         show decide (max w y < min x z) = decide (max y w < min z x)
         rw [max_comm, min_comm])

theorem schedulesOverlap_touching (a b : MeetingBlock)
    (h : toMinutes a.endTime = toMinutes b.startTime) : schedulesOverlap a b = false := by
  rw [schedulesOverlap_eq, h]
  cases toMinutes a.startTime <;> cases toMinutes a.endTime <;>
    cases toMinutes b.startTime <;> cases toMinutes b.endTime <;>
    simp

theorem schedulesOverlap_touching_rev (a b : MeetingBlock)
    (h : toMinutes a.startTime = toMinutes b.endTime) : schedulesOverlap a b = false := by
  rw [schedulesOverlap_eq, h]
  cases toMinutes a.startTime <;> cases toMinutes a.endTime <;>
    cases toMinutes b.startTime <;> cases toMinutes b.endTime <;>
    simp

/-- C5. Overlap boundary: when the end of one block is the same well-formed
`HH:MM` time as the start of the other, `schedulesOverlap` is false in both
argument orders, for any days (in particular the same recognised day) and any
other start and end. Monday 09:00-10:00 and Monday 10:00-11:00 do not
overlap; Monday 09:00-10:30 and Monday 10:00-11:00 do. -/
theorem schedulesOverlap_boundary (dayA dayB startA endB locA locB : JSVal) (h m : Nat)
    (hh : h < 24) (hm : m < 60) :
    toMinutes (.str (hhmm h m)) = some ((h * 60 + m : Nat) : Int) ∧
      schedulesOverlap
        { dayOfWeek := dayA, startTime := startA, endTime := .str (hhmm h m), location := locA }
        { dayOfWeek := dayB, startTime := .str (hhmm h m), endTime := endB, location := locB } =
        false ∧
      schedulesOverlap
        { dayOfWeek := dayB, startTime := .str (hhmm h m), endTime := endB, location := locB }
        { dayOfWeek := dayA, startTime := startA, endTime := .str (hhmm h m), location := locA } =
        false ∧
      schedulesOverlap (block "MONDAY" "09:00" "10:00") (block "MONDAY" "10:00" "11:00") = false ∧
      schedulesOverlap (block "MONDAY" "09:00" "10:30") (block "MONDAY" "10:00" "11:00") = true :=
  ⟨toMinutes_hhmm h m (by omega) (by omega),
    schedulesOverlap_touching _ _ rfl, schedulesOverlap_touching_rev _ _ rfl,
    by decide, by decide⟩

theorem schedulesOverlap_boundary_witness :
    schedulesOverlap
        { dayOfWeek := .str "MONDAY", startTime := .str "09:00", endTime := .str (hhmm 10 0),
          location := .undefined }
        { dayOfWeek := .str "MONDAY", startTime := .str (hhmm 10 0), endTime := .str "11:00",
          location := .undefined } = false ∧
      hhmm 10 0 = "10:00" :=
  ⟨(schedulesOverlap_boundary (.str "MONDAY") (.str "MONDAY") (.str "09:00") (.str "11:00")
      .undefined .undefined 10 0 (by decide) (by decide)).2.1, by decide⟩

/-- C6. Different-day non-overlap: two blocks whose days are two different
recognised day names (in any letter case) never overlap, whatever their start
and end times are; for example Monday 09:00-10:00 and Tuesday 09:00-10:00. -/
theorem schedulesOverlap_different_days (dayA dayB : String)
    (startA endA locA startB endB locB : JSVal)
    (hdayA : toUpperCase dayA ∈ DOW) (hdayB : toUpperCase dayB ∈ DOW)
    (hne : toUpperCase dayA ≠ toUpperCase dayB) :
    schedulesOverlap
        { dayOfWeek := .str dayA, startTime := startA, endTime := endA, location := locA }
        { dayOfWeek := .str dayB, startTime := startB, endTime := endB, location := locB } =
      false := by
  have hidx : jsIndexOf DOW (toUpperCase dayA) ≠ jsIndexOf DOW (toUpperCase dayB) :=
    fun h => hne ((jsIndexOf_DOW_inj _ _ hdayA hdayB).mp h)
  simp [schedulesOverlap, dayIndex_str, hidx]

theorem schedulesOverlap_different_days_witness :
    schedulesOverlap (block "MONDAY" "09:00" "10:00") (block "TUESDAY" "09:00" "10:00") = false :=
  schedulesOverlap_different_days "MONDAY" "TUESDAY" (.str "09:00") (.str "10:00") .undefined
    (.str "09:00") (.str "10:00") .undefined (by decide) (by decide) (by decide)

/-- C7. Two blocks whose days are both unrecognised get the same index `-1`,
so the day test lets them through and overlapping times are reported: `MON`
09:00-10:30 against `TUE` 10:00-11:00, and a block with no day against a block
with day `FUNDAY`, both give true, although none of these days is recognised. -/
theorem schedulesOverlap_unrecognised_days :
    toUpperCase "MON" ∉ DOW ∧ toUpperCase "TUE" ∉ DOW ∧ toUpperCase "FUNDAY" ∉ DOW ∧
      dayIndex (.str "MON") = -1 ∧ dayIndex (.str "TUE") = -1 ∧ dayIndex .undefined = -1 ∧
      schedulesOverlap (block "MON" "09:00" "10:30") (block "TUE" "10:00" "11:00") = true ∧
      schedulesOverlap
        { dayOfWeek := .undefined, startTime := .str "09:00", endTime := .str "10:30" }
        (block "FUNDAY" "10:00" "11:00") = true := by
  decide

theorem orZero_get?_of_all_nan (l : List JSNum) (h : ∀ x ∈ l, x = .nan) (i : Nat) :
    orZero (l.get? i) = 0 := by
  cases hi : l.get? i with
  | none => rfl
  | some x =>
    have hx : x ∈ l := List.get?_mem hi
    rw [h x hx]
    rfl

theorem dropWhile_head_false (f : Char → Bool) (p : List Char) (c : Char) (rest : List Char)
    (h : p.dropWhile f = c :: rest) : f c = false := by
  induction p with
  | nil => cases h
  | cons x xs ih =>
    rw [List.dropWhile_cons] at h
    by_cases hx : f x = true
    · rw [if_pos hx] at h
      exact ih h
    · rw [if_neg hx] at h
      have hxc : x = c := (List.cons.inj h).1
      rw [← hxc]
      simpa using hx

theorem dropWhile_append_last (f : Char → Bool) (l : List Char) (c : Char) (hc : f c = false) :
    ∃ l', (l ++ [c]).dropWhile f = l' ++ [c] := by
  induction l with
  | nil => exact ⟨[], by simp [List.dropWhile, hc]⟩
  | cons x xs ih =>
    by_cases hx : f x = true
    · obtain ⟨l', hl'⟩ := ih
      exact ⟨l', by rw [List.cons_append, List.dropWhile_cons, if_pos hx, hl']⟩
    · exact ⟨x :: xs, by rw [List.cons_append, List.dropWhile_cons, if_neg hx]⟩

theorem jsNumber_of_notNumeric (p : List Char) (h : notNumeric p = true) : jsNumber p = .nan := by
  unfold notNumeric at h
  cases hq : p.dropWhile isJSWhiteSpace with
  | nil => rw [hq] at h; cases h
  | cons c rest =>
    rw [hq] at h
    have hstart : startsNumber c = false := by simpa using h
    have hws : isJSWhiteSpace c = false := dropWhile_head_false _ p c rest hq
    obtain ⟨l', hl'⟩ := dropWhile_append_last isJSWhiteSpace rest.reverse c hws
    have htrim : ((c :: rest).reverse.dropWhile isJSWhiteSpace).reverse = c :: l'.reverse := by
      rw [List.reverse_cons, hl']
      simp
    simp only [startsNumber, Bool.or_eq_false_iff, decide_eq_false_iff_not, beq_eq_false_iff_ne,
      ne_eq] at hstart
    obtain ⟨⟨⟨⟨hdigit, hplus⟩, hminus⟩, _⟩, _⟩ := hstart
    unfold jsNumber
    rw [hq, htrim]
    split
    · rename_i heq
      cases heq
    · rename_i ds heq
      exact absurd (List.cons.inj heq).1 hplus
    · rename_i ds heq
      exact absurd (List.cons.inj heq).1 hminus
    · simp [unsignedValue, digitsValue, digitValue, hdigit]

theorem toMinutes_unparseable (s : String) (hs : unparseable s) : toMinutes (.str s) = some 0 := by
  have hne : truthy (.str s) = true := by simp [truthy, hs.1]
  have hall : ∀ x ∈ (splitOn ':' s.toList).map jsNumber, x = .nan := by
    intro x hx
    rcases List.mem_map.mp hx with ⟨p, hp, rfl⟩
    exact jsNumber_of_notNumeric p (hs.2 p hp)
  simp only [toMinutes, hne, jsString, Bool.not_true, Bool.false_eq_true, if_false,
    orZero_get?_of_all_nan _ hall]
  rfl

/-- C8, as stated, fails: `abc` is a non-empty text that is no `HH:MM` time,
yet Monday `abc`-10:00 overlaps Monday 09:00-09:30. -/
theorem unparseable_time_overlaps :
    unparseable "abc" ∧ (∀ h m : Nat, "abc" ≠ hhmm h m) ∧
      toMinutes (.str "abc") = some 0 ∧
      schedulesOverlap (block "MONDAY" "abc" "10:00") (block "MONDAY" "09:00" "09:30") = true := by
  refine ⟨⟨by decide, by decide⟩, ?_, by decide, by decide⟩
  intro h m heq
  have hlen := congrArg String.length heq
  simp [hhmm, String.length] at hlen

/-- C8, amended. An unparseable time is read as minute 0, not as missing: a
non-empty time text each of whose colon-separated parts begins, after its
leading white space, with a character that begins no numeric literal (not a
digit, a sign, a dot or the `I` of `Infinity`; such as `abc`) gives
`toMinutes = 0`, and a block with such a start time (or end time) overlaps any
block `b` exactly as the same block with that time replaced by `00:00` does.
Texts that `Number` may read as a number, such as `1.5`, `0x10` or `1e1`, are
not covered. -/
theorem schedulesOverlap_unparseable (a b : MeetingBlock) (s : String) (hs : unparseable s) :
    toMinutes (.str s) = some 0 ∧
      (a.startTime = .str s →
        schedulesOverlap a b = schedulesOverlap { a with startTime := .str "00:00" } b) ∧
      (a.endTime = .str s →
        schedulesOverlap a b = schedulesOverlap { a with endTime := .str "00:00" } b) := by
  have h0 := toMinutes_unparseable s hs
  have hmid : toMinutes (.str "00:00") = some 0 := by decide
  refine ⟨h0, ?_, ?_⟩
  · intro hstart
    rw [schedulesOverlap_eq a b, schedulesOverlap_eq _ b, hstart, h0, hmid]
  · intro hend
    rw [schedulesOverlap_eq a b, schedulesOverlap_eq _ b, hend, h0, hmid]

theorem schedulesOverlap_unparseable_witness :
    unparseable "abc" ∧
      schedulesOverlap (block "MONDAY" "abc" "10:00") (block "MONDAY" "09:00" "09:30") =
        schedulesOverlap (block "MONDAY" "00:00" "10:00") (block "MONDAY" "09:00" "09:30") ∧
      ¬ unparseable "1.5" ∧ ¬ unparseable "0x10" ∧ ¬ unparseable "1e1" ∧
      ¬ unparseable "Infinity" ∧ ¬ unparseable "abc:30" :=
  ⟨⟨by decide, by decide⟩,
    (schedulesOverlap_unparseable (block "MONDAY" "abc" "10:00") (block "MONDAY" "09:00" "09:30")
      "abc" ⟨by decide, by decide⟩).2.1 rfl,
    fun h => absurd h.2 (by decide), fun h => absurd h.2 (by decide),
    fun h => absurd h.2 (by decide), fun h => absurd h.2 (by decide),
    fun h => absurd h.2 (by decide)⟩

/-- C9. A block with a missing start or end time (`null`, `undefined` or the
empty string) never takes part in an overlap: `schedulesOverlap` is false
against every block, in both argument orders. -/
theorem schedulesOverlap_missing_time (a b : MeetingBlock)
    (h : isMissing a.startTime ∨ isMissing a.endTime) :
    schedulesOverlap a b = false ∧ schedulesOverlap b a = false := by
  rw [schedulesOverlap_eq a b, schedulesOverlap_eq b a]
  rcases h with h | h
  · rw [toMinutes_of_isMissing _ h]
    constructor
    · simp
    · cases toMinutes b.startTime <;> cases toMinutes b.endTime <;> simp
  · rw [toMinutes_of_isMissing _ h]
    constructor
    · cases toMinutes a.startTime <;> simp
    · cases toMinutes b.startTime <;> cases toMinutes b.endTime <;>
        cases toMinutes a.startTime <;> simp

theorem schedulesOverlap_missing_time_witness :
    schedulesOverlap
        { dayOfWeek := .str "MONDAY", startTime := .null, endTime := .str "10:00" }
        (block "MONDAY" "09:00" "11:00") = false ∧
      schedulesOverlap (block "MONDAY" "09:00" "") (block "MONDAY" "09:00" "11:00") = false :=
  ⟨(schedulesOverlap_missing_time
      { dayOfWeek := .str "MONDAY", startTime := .null, endTime := .str "10:00" }
      (block "MONDAY" "09:00" "11:00") (Or.inl (Or.inr (Or.inl rfl)))).1,
    by decide⟩

/-! ## Schedule-conflict detector: same-term filter -/

/-- C10. The same-term filter compares term codes with `===`, so letter case
matters: with no ids on either side, the codes `fall24` and `FALL24` (equal
ignoring case) are not kept as the same term, while identical codes are. The
rest of the rule is as claimed: an offering is kept exactly when both terms
have an id (`id ?? termId` not nullish) and the ids are equal as strings, or
one of them lacks an id, both codes are truthy and the codes are equal as
strings. -/
theorem sameTerm_code_case_sensitive :
    toUpperCase "fall24" = toUpperCase "FALL24" ∧
      sameTerm { term := some { code := .str "FALL24" } }
        (some { term := some { code := .str "fall24" } }) = false ∧
      sameTerm { term := some { code := .str "FALL24" } }
        (some { term := some { code := .str "FALL24" } }) = true ∧
      ∀ (target : Offering) (d : Option Offering),
        sameTerm target d = true ↔
          (isNullish (jsCoalesce (termField (d.bind Offering.term) Term.id)
                (termField (d.bind Offering.term) Term.termId)) = false ∧
              isNullish (jsCoalesce (termField target.term Term.id)
                (termField target.term Term.termId)) = false ∧
              jsString (jsCoalesce (termField (d.bind Offering.term) Term.id)
                  (termField (d.bind Offering.term) Term.termId)) =
                jsString (jsCoalesce (termField target.term Term.id)
                  (termField target.term Term.termId))) ∨
            ((isNullish (jsCoalesce (termField (d.bind Offering.term) Term.id)
                  (termField (d.bind Offering.term) Term.termId)) = true ∨
                isNullish (jsCoalesce (termField target.term Term.id)
                  (termField target.term Term.termId)) = true) ∧
              truthy (termField (d.bind Offering.term) Term.code) = true ∧
              truthy (termField target.term Term.code) = true ∧
              jsString (termField (d.bind Offering.term) Term.code) =
                jsString (termField target.term Term.code)) := by
  refine ⟨by decide, by decide, by decide, ?_⟩
  intro target d
  simp only [sameTerm]
  generalize jsCoalesce (termField (d.bind Offering.term) Term.id)
    (termField (d.bind Offering.term) Term.termId) = aid
  generalize jsCoalesce (termField target.term Term.id)
    (termField target.term Term.termId) = bid
  generalize termField (d.bind Offering.term) Term.code = acode
  generalize termField target.term Term.code = bcode
  cases h1 : isNullish aid <;> cases h2 : isNullish bid <;>
    cases h3 : truthy acode <;> cases h4 : truthy bcode <;> simp

/-! ## Schedule-conflict detector: `hasScheduleConflict` -/

theorem ensureOfferingDetail_cons (api : Backend) (cache : OfferingCache) (k id : JSVal)
    (o : Offering) (hmiss : cache.lookup k = none) (hget : api.getOffering k = some o) :
    (ensureOfferingDetail api ((k, o) :: cache) id).2 = (ensureOfferingDetail api cache id).2 := by
  unfold ensureOfferingDetail
  by_cases hid : truthy id = true
  · by_cases hk : id = k
    · subst hk
      simp [hid, hmiss, hget]
    · have hbeq : (id == k) = false := by simpa using hk
      simp only [hid, Bool.not_true, Bool.false_eq_true, if_false, List.lookup_cons, hbeq]
      cases List.lookup id cache with
      | some _ => rfl
      | none => cases api.getOffering id <;> rfl
  · simp [hid]

theorem ensureOfferingDetail_agree (api : Backend) (cache : OfferingCache) (k id : JSVal) :
    (ensureOfferingDetail api (ensureOfferingDetail api cache k).1 id).2 =
      (ensureOfferingDetail api cache id).2 := by
  by_cases hk : truthy k = true
  · cases hl : cache.lookup k with
    | some o => simp [ensureOfferingDetail, hk, hl]
    | none =>
      cases hg : api.getOffering k with
      | none => simp [ensureOfferingDetail, hk, hl, hg]
      | some o =>
        have h1 : (ensureOfferingDetail api cache k).1 = (k, o) :: cache := by
          simp [ensureOfferingDetail, hk, hl, hg]
        rw [h1]
        exact ensureOfferingDetail_cons api cache k id o hl hg
  · have h1 : (ensureOfferingDetail api cache k).1 = cache := by
      simp [ensureOfferingDetail, hk]
    rw [h1]

theorem ensureOfferingDetails_eq_map (api : Backend) (cache : OfferingCache) (ids : List JSVal)
    (c : OfferingCache)
    (hc : ∀ id, (ensureOfferingDetail api c id).2 = (ensureOfferingDetail api cache id).2) :
    (ensureOfferingDetails api c ids).2 =
      ids.map (fun id => (ensureOfferingDetail api cache id).2) := by
  induction ids generalizing c with
  | nil => rfl
  | cons k ks ih =>
    have hnext : ∀ id, (ensureOfferingDetail api (ensureOfferingDetail api c k).1 id).2 =
        (ensureOfferingDetail api cache id).2 := by
      intro id
      rw [ensureOfferingDetail_agree, hc]
    simp only [ensureOfferingDetails, List.map_cons, hc k, ih _ hnext]

theorem hasScheduleConflict_loaded (api : Backend) (cache : OfferingCache)
    (targetId : JSVal) (target : Offering) (es : List Enrollment)
    (htarget : (ensureOfferingDetail api cache targetId).2 = some target)
    (hmine : api.listMyEnrollments = .items es) :
    (hasScheduleConflict api cache targetId).2 =
      some (anyOverlap target
        ((((es.map enrollmentOfferingId).filter truthy).map
          (fun id => (ensureOfferingDetail api cache id).2)).filter (sameTerm target))) := by
  have hpair : ensureOfferingDetail api cache targetId =
      ((ensureOfferingDetail api cache targetId).1, some target) := by
    rw [← htarget]
  unfold hasScheduleConflict
  rw [hpair]
  simp only [hmine]
  rw [ensureOfferingDetails_eq_map api cache _ _
    (fun id => ensureOfferingDetail_agree api cache targetId id)]

theorem hasScheduleConflict_not_loaded (api : Backend) (cache : OfferingCache)
    (targetId : JSVal) (htarget : (ensureOfferingDetail api cache targetId).2 = none) :
    (hasScheduleConflict api cache targetId).2 = some false := by
  have hpair : ensureOfferingDetail api cache targetId =
      ((ensureOfferingDetail api cache targetId).1, none) := by
    rw [← htarget]
  unfold hasScheduleConflict
  rw [hpair]

theorem ensureOfferingDetail_falsy (api : Backend) (cache : OfferingCache) (id : JSVal)
    (h : truthy id = false) : (ensureOfferingDetail api cache id).2 = none := by
  simp [ensureOfferingDetail, h]

theorem anyOverlap_eq_true_iff (target : Offering) (ds : List (Option Offering)) :
    anyOverlap target ds = true ↔
      ∃ d, some d ∈ ds ∧ ∃ a ∈ d.schedules.getD [], ∃ b ∈ target.schedules.getD [],
        schedulesOverlap a b = true := by
  simp only [anyOverlap, List.any_eq_true]
  constructor
  · rintro ⟨d, hd, a, ha, b, hb, hab⟩
    cases d with
    | none => simp [schedulesOf] at ha
    | some o => exact ⟨o, hd, a, ha, b, hb, hab⟩
  · rintro ⟨o, hd, a, ha, b, hb, hab⟩
    exact ⟨some o, hd, a, ha, b, hb, hab⟩

/-- C11. Cross-term isolation. When the candidate offering and the enrollment
list load and the same-term filter rejects the offering of every existing
enrollment (each belongs to a different term than the candidate),
`hasScheduleConflict` resolves with false, whatever the meeting blocks are,
overlapping ones included. -/
theorem hasScheduleConflict_cross_term (api : Backend) (cache : OfferingCache)
    (targetId : JSVal) (target : Offering) (es : List Enrollment)
    (htarget : (ensureOfferingDetail api cache targetId).2 = some target)
    (hmine : api.listMyEnrollments = .items es)
    (hdiff : ∀ e ∈ es,
      sameTerm target (ensureOfferingDetail api cache (enrollmentOfferingId e)).2 = false) :
    (hasScheduleConflict api cache targetId).2 = some false := by
  rw [hasScheduleConflict_loaded api cache targetId target es htarget hmine]
  have hnil : (((es.map enrollmentOfferingId).filter truthy).map
      (fun id => (ensureOfferingDetail api cache id).2)).filter (sameTerm target) = [] := by
    rw [List.filter_eq_nil_iff]
    intro d hd
    rcases List.mem_map.mp hd with ⟨id, hid, rfl⟩
    rcases List.mem_map.mp (List.mem_filter.mp hid).1 with ⟨e, he, rfl⟩
    simp [hdiff e he]
  rw [hnil]
  rfl

theorem hasScheduleConflict_cross_term_witness :
    schedulesOverlap (block "MONDAY" "09:00" "10:30") (block "MONDAY" "10:00" "11:00") = true ∧
      (hasScheduleConflict (sampleBackend "SPRING25" [{ offeringId := .num 1 }]) []
        (.num 2)).2 = some false :=
  ⟨by decide,
    hasScheduleConflict_cross_term (sampleBackend "SPRING25" [{ offeringId := .num 1 }]) []
      (.num 2) (sampleCandidate "SPRING25") [{ offeringId := .num 1 }] rfl rfl (by decide)⟩

/-- C12. When the candidate offering `target` and the enrollment list `es`
load, `hasScheduleConflict` resolves with true exactly when some enrollment's
offering loads as `d`, `d` passes the same-term filter against the candidate,
and a meeting block of `d` overlaps a meeting block of the candidate; in every
other case (no such pair, or no schedules on either side) it resolves with
false. -/
theorem hasScheduleConflict_iff (api : Backend) (cache : OfferingCache)
    (targetId : JSVal) (target : Offering) (es : List Enrollment)
    (htarget : (ensureOfferingDetail api cache targetId).2 = some target)
    (hmine : api.listMyEnrollments = .items es) :
    ((hasScheduleConflict api cache targetId).2 = some true ↔
        ∃ e ∈ es, ∃ d, (ensureOfferingDetail api cache (enrollmentOfferingId e)).2 = some d ∧
          sameTerm target (some d) = true ∧
          ∃ ds ∈ d.schedules.getD [], ∃ ts ∈ target.schedules.getD [],
            schedulesOverlap ds ts = true) ∧
      ((hasScheduleConflict api cache targetId).2 = some false ↔
        ¬ ∃ e ∈ es, ∃ d, (ensureOfferingDetail api cache (enrollmentOfferingId e)).2 = some d ∧
          sameTerm target (some d) = true ∧
          ∃ ds ∈ d.schedules.getD [], ∃ ts ∈ target.schedules.getD [],
            schedulesOverlap ds ts = true) := by
  rw [hasScheduleConflict_loaded api cache targetId target es htarget hmine]
  have key : anyOverlap target
      ((((es.map enrollmentOfferingId).filter truthy).map
        (fun id => (ensureOfferingDetail api cache id).2)).filter (sameTerm target)) = true ↔
      ∃ e ∈ es, ∃ d, (ensureOfferingDetail api cache (enrollmentOfferingId e)).2 = some d ∧
        sameTerm target (some d) = true ∧
        ∃ ds ∈ d.schedules.getD [], ∃ ts ∈ target.schedules.getD [],
          schedulesOverlap ds ts = true := by
    rw [anyOverlap_eq_true_iff]
    constructor
    · rintro ⟨d, hd, hov⟩
      rcases List.mem_filter.mp hd with ⟨hmem, hsame⟩
      rcases List.mem_map.mp hmem with ⟨id, hid, hload⟩
      rcases List.mem_map.mp (List.mem_filter.mp hid).1 with ⟨e, he, rfl⟩
      exact ⟨e, he, d, hload, hsame, hov⟩
    · rintro ⟨e, he, d, hload, hsame, hov⟩
      refine ⟨d, List.mem_filter.mpr ⟨List.mem_map.mpr ⟨enrollmentOfferingId e, ?_, hload⟩,
        hsame⟩, hov⟩
      refine List.mem_filter.mpr ⟨List.mem_map.mpr ⟨e, he, rfl⟩, ?_⟩
      cases htr : truthy (enrollmentOfferingId e) with
      | true => rfl
      | false =>
        rw [ensureOfferingDetail_falsy api cache _ htr] at hload
        cases hload
  constructor
  · rw [← key]
    simp
  · rw [← key]
    simp

theorem hasScheduleConflict_iff_witness :
    ((hasScheduleConflict (sampleBackend "FALL24" [{ offeringId := .num 1 }]) [] (.num 2)).2 =
        some true ↔
      ∃ e ∈ [({ offeringId := .num 1 } : Enrollment)], ∃ d,
        (ensureOfferingDetail (sampleBackend "FALL24" [{ offeringId := .num 1 }]) []
          (enrollmentOfferingId e)).2 = some d ∧
        sameTerm (sampleCandidate "FALL24") (some d) = true ∧
        ∃ ds ∈ d.schedules.getD [], ∃ ts ∈ (sampleCandidate "FALL24").schedules.getD [],
          schedulesOverlap ds ts = true) ∧
      (hasScheduleConflict (sampleBackend "FALL24" [{ offeringId := .num 1 }]) [] (.num 2)).2 =
        some true :=
  ⟨(hasScheduleConflict_iff (sampleBackend "FALL24" [{ offeringId := .num 1 }]) [] (.num 2)
      (sampleCandidate "FALL24") [{ offeringId := .num 1 }] rfl rfl).1,
    by decide⟩

theorem ensureOfferingDetail_failed (api : Backend) (cache : OfferingCache) (id : JSVal)
    (hmiss : cache.lookup id = none) (hfail : api.getOffering id = none) :
    ensureOfferingDetail api cache id = (cache, none) := by
  unfold ensureOfferingDetail
  by_cases hid : truthy id = true <;> simp [hid, hmiss, hfail]

/-- C13. Silent degradation on fetch failure. Let the candidate and the
enrollment list load, and let the offering of one enrollment `e` be neither
cached nor loadable (`getOffering` fails). Then `ensureOfferingDetail`
swallows the failure and returns nothing, `hasScheduleConflict` still resolves
with a boolean, and that boolean is the one it resolves with when `e` is
removed from the enrollment list. -/
theorem hasScheduleConflict_fetch_failure (api : Backend) (cache : OfferingCache)
    (targetId : JSVal) (target : Offering) (es1 es2 : List Enrollment) (e : Enrollment)
    (htarget : (ensureOfferingDetail api cache targetId).2 = some target)
    (hmine : api.listMyEnrollments = .items (es1 ++ e :: es2))
    (hmiss : cache.lookup (enrollmentOfferingId e) = none)
    (hfail : api.getOffering (enrollmentOfferingId e) = none) :
    ensureOfferingDetail api cache (enrollmentOfferingId e) = (cache, none) ∧
      (∃ b, (hasScheduleConflict api cache targetId).2 = some b) ∧
      (hasScheduleConflict api cache targetId).2 =
        (hasScheduleConflict { api with listMyEnrollments := .items (es1 ++ es2) } cache
          targetId).2 := by
  have hnone := ensureOfferingDetail_failed api cache _ hmiss hfail
  have hleft := hasScheduleConflict_loaded api cache targetId target _ htarget hmine
  have hright := hasScheduleConflict_loaded
    { api with listMyEnrollments := .items (es1 ++ es2) } cache targetId target (es1 ++ es2)
    htarget rfl
  refine ⟨hnone, ⟨_, hleft⟩, ?_⟩
  rw [hleft, hright]
  have hdrop : sameTerm target (ensureOfferingDetail api cache (enrollmentOfferingId e)).2 =
      false := by
    rw [hnone]
    rfl
  have hsame : ∀ id, (ensureOfferingDetail
      { api with listMyEnrollments := .items (es1 ++ es2) } cache id).2 =
      (ensureOfferingDetail api cache id).2 := fun _ => rfl
  simp only [hsame, List.map_append, List.map_cons, List.filter_append, List.filter_cons]
  by_cases hid : truthy (enrollmentOfferingId e) = true
  · simp [hid, hdrop]
  · simp [hid]

theorem hasScheduleConflict_fetch_failure_witness :
    (hasScheduleConflict
        (sampleBackend "FALL24" [{ offeringId := .num 1 }, { offeringId := .num 7 }]) []
        (.num 2)).2 =
      (hasScheduleConflict
        { sampleBackend "FALL24" [{ offeringId := .num 1 }, { offeringId := .num 7 }] with
          listMyEnrollments := .items ([{ offeringId := .num 1 }] ++ []) } []
        (.num 2)).2 ∧
      (hasScheduleConflict
        (sampleBackend "FALL24" [{ offeringId := .num 1 }, { offeringId := .num 7 }]) []
        (.num 2)).2 = some true :=
  ⟨(hasScheduleConflict_fetch_failure
      (sampleBackend "FALL24" [{ offeringId := .num 1 }, { offeringId := .num 7 }]) []
      (.num 2) (sampleCandidate "FALL24") [{ offeringId := .num 1 }] []
      { offeringId := .num 7 } rfl rfl rfl rfl).2.2,
    by decide⟩

/-! ## Session client: the stored token record -/

theorem parseJsonString_control (n : Nat) (hn : n < 32) (tail : List Char) :
    parseJsonString .plain (jsonEscapeChar (Char.ofNat n) ++ tail) =
      (parseJsonString .plain tail).map fun p => (Char.ofNat n :: p.1, p.2) := by
  interval_cases n <;> rfl

theorem parseJsonString_escapeChar (c : Char) (tail : List Char) :
    parseJsonString .plain (jsonEscapeChar c ++ tail) =
      (parseJsonString .plain tail).map fun p => (c :: p.1, p.2) := by
  by_cases hlow : c.toNat < 32
  · have h := parseJsonString_control c.toNat hlow tail
    rwa [Char.ofNat_toNat] at h
  · by_cases hq : c = '"'
    · subst hq
      rfl
    · by_cases hb : c = '\\'
      · subst hb
        rfl
      · have hne : ∀ n, n < 32 → c ≠ Char.ofNat n := by
          intro n hn hc
          apply hlow
          rw [hc]
          interval_cases n <;> decide
        simp [jsonEscapeChar, parseJsonString, hq, hb, hlow, hne 8, hne 9, hne 10, hne 12,
          hne 13]

theorem parseJsonString_quoted (s tail : List Char) :
    parseJsonString .plain (s.flatMap jsonEscapeChar ++ '"' :: tail) = some (s, tail) := by
  induction s with
  | nil => simp [parseJsonString]
  | cons c cs ih =>
    rw [List.flatMap_cons, List.append_assoc, parseJsonString_escapeChar, ih]
    rfl

theorem parseJsonString_key (key tail : List Char) :
    parseJsonString .plain (key.flatMap jsonEscapeChar ++ ['"'] ++ tail) = some (key, tail) := by
  rw [List.append_assoc]
  exact parseJsonString_quoted key tail

theorem parseJsonValue_text (v : JSVal) (hv : v = .null ∨ ∃ s, v = .str s) :
    ∃ text, jsonValue v = some text ∧
      ∀ tail, parseJsonValue (text ++ tail) = some (v, tail) := by
  rcases hv with rfl | ⟨s, rfl⟩
  · exact ⟨_, rfl, fun _ => rfl⟩
  · refine ⟨_, rfl, fun tail => ?_⟩
    show parseJsonValue ('"' :: (s.toList.flatMap jsonEscapeChar ++ ['"'] ++ tail)) = _
    simp only [parseJsonValue, parseJsonString_key, Option.map_some']
    rfl

theorem parseJsonMembers_last (fuel : Nat) (key : String) (v : JSVal) (text tail : List Char)
    (hv : ∀ rest, parseJsonValue (text ++ rest) = some (v, rest)) :
    parseJsonMembers (fuel + 1) (jsonQuote key.toList ++ ':' :: text ++ '}' :: tail) =
      some ([(key, v)], tail) := by
  have h1 : jsonQuote key.toList ++ ':' :: text ++ '}' :: tail =
      '"' :: (key.toList.flatMap jsonEscapeChar ++ ['"'] ++ (':' :: (text ++ '}' :: tail))) := by
    simp [jsonQuote]
  rw [h1]
  simp only [parseJsonMembers, parseJsonString_key, hv]
  rfl

theorem parseJsonMembers_more (fuel : Nat) (key : String) (v : JSVal) (text tail : List Char)
    (hv : ∀ rest, parseJsonValue (text ++ rest) = some (v, rest)) :
    parseJsonMembers (fuel + 1) (jsonQuote key.toList ++ ':' :: text ++ ',' :: tail) =
      (parseJsonMembers fuel tail).map fun p => ((key, v) :: p.1, p.2) := by
  have h1 : jsonQuote key.toList ++ ':' :: text ++ ',' :: tail =
      '"' :: (key.toList.flatMap jsonEscapeChar ++ ['"'] ++ (':' :: (text ++ ',' :: tail))) := by
    simp [jsonQuote]
  rw [h1]
  simp only [parseJsonMembers, parseJsonString_key, hv]
  rfl

theorem getTokensText_stringify (t : Tokens)
    (ha : t.accessToken = .null ∨ ∃ s, t.accessToken = .str s)
    (hr : t.refreshToken = .null ∨ ∃ s, t.refreshToken = .str s) :
    getTokensText (some (jsonStringifyTokens t)) = some t := by
  obtain ⟨ta, hta, hpa⟩ := parseJsonValue_text _ ha
  obtain ⟨tr, htr, hpr⟩ := parseJsonValue_text _ hr
  have htext : (jsonStringifyTokens t).toList =
      '{' :: (jsonQuote "accessToken".toList ++ ':' :: ta ++ ',' ::
        (jsonQuote "refreshToken".toList ++ ':' :: tr ++ '}' :: [])) := by
    simp [jsonStringifyTokens, jsonMember, hta, htr, List.intercalate, List.intersperse]
  have hne : jsonStringifyTokens t ≠ "" := by
    intro h
    have := congrArg String.toList h
    rw [htext] at this
    simp at this
  obtain ⟨k, hk⟩ : ∃ k, (jsonQuote "accessToken".toList ++ ':' :: ta ++ ',' ::
      (jsonQuote "refreshToken".toList ++ ':' :: tr ++ '}' :: [])).length = k + 2 := by
    refine ⟨_, (Nat.sub_add_cancel ?_).symm⟩
    simp [jsonQuote]
    omega
  have hparse : parseJsonObject (jsonStringifyTokens t).toList =
      some [("accessToken", t.accessToken), ("refreshToken", t.refreshToken)] := by
    rw [htext]
    have hshape : ∀ r : List Char, r = jsonQuote "accessToken".toList ++ ':' :: ta ++ ',' ::
        (jsonQuote "refreshToken".toList ++ ':' :: tr ++ '}' :: []) →
        parseJsonObject ('{' :: r) =
          some [("accessToken", t.accessToken), ("refreshToken", t.refreshToken)] := by
      intro r hr'
      have hlen : r.length = k + 2 := by rw [hr']; exact hk
      have hnot : r ≠ ['}'] := by
        intro h
        rw [h] at hlen
        simp at hlen
      have hm : parseJsonMembers r.length r =
          some ([("accessToken", t.accessToken), ("refreshToken", t.refreshToken)], []) := by
        rw [hlen, hr', parseJsonMembers_more _ _ _ _ _ hpa, parseJsonMembers_last _ _ _ _ _ hpr]
        rfl
      simp only [parseJsonObject, hnot, if_false, hm]
    exact hshape _ rfl
  simp only [getTokensText, hne, if_false, hparse, Option.map_some']
  cases t
  rfl

theorem setAuthHeader_frame (st : ClientState) (token : JSVal) :
    (setAuthHeader st token).localStorage = st.localStorage ∧
      (setAuthHeader st token).isRefreshing = st.isRefreshing ∧
      (setAuthHeader st token).refreshQueue = st.refreshQueue ∧
      (setAuthHeader st token).refreshCalls = st.refreshCalls ∧
      (setAuthHeader st token).replayed = st.replayed ∧
      (setAuthHeader st token).queueRejected = st.queueRejected := by
  unfold setAuthHeader
  split <;> exact ⟨rfl, rfl, rfl, rfl, rfl, rfl⟩

theorem clearTokens_spec (st : ClientState) :
    (clearTokens st).localStorage = { st.localStorage with auth_tokens := none } ∧
      (clearTokens st).defaultAuthorization = none ∧
      (clearTokens st).isRefreshing = st.isRefreshing ∧
      (clearTokens st).refreshQueue = st.refreshQueue ∧
      (clearTokens st).refreshCalls = st.refreshCalls ∧
      (clearTokens st).replayed = st.replayed ∧
      (clearTokens st).queueRejected = st.queueRejected :=
  ⟨rfl, rfl, rfl, rfl, rfl, rfl, rfl⟩

theorem setTokens_spec (st : ClientState) (t : Tokens) :
    (setTokens st t).localStorage = { st.localStorage with auth_tokens := some t } ∧
      (setTokens st t).isRefreshing = st.isRefreshing ∧
      (setTokens st t).refreshQueue = st.refreshQueue ∧
      (setTokens st t).refreshCalls = st.refreshCalls ∧
      (setTokens st t).replayed = st.replayed ∧
      (setTokens st t).queueRejected = st.queueRejected := by
  unfold setTokens
  exact setAuthHeader_frame _ _

/-- C14. Token persistence round-trip. For an access token and a refresh
token that are each a string or `null`, `getTokens` after `setTokens` gives
back the same record; and on the stored text itself, `JSON.parse` (as
`getTokens` applies it to a non-empty item) gives back the record that
`JSON.stringify` wrote. -/
theorem setTokens_getTokens (st : ClientState) (t : Tokens)
    (ha : t.accessToken = .null ∨ ∃ s, t.accessToken = .str s)
    (hr : t.refreshToken = .null ∨ ∃ s, t.refreshToken = .str s) :
    getTokens (setTokens st t).localStorage = t ∧
      getTokensText (some (jsonStringifyTokens t)) = some t := by
  refine ⟨?_, getTokensText_stringify t ha hr⟩
  rw [(setTokens_spec st t).1]
  rfl

theorem setTokens_getTokens_witness :
    getTokens (setTokens sampleFresh { accessToken := .str "A\"1", refreshToken := .null }).localStorage =
        { accessToken := .str "A\"1", refreshToken := .null } ∧
      getTokensText (some (jsonStringifyTokens { accessToken := .str "A\"1", refreshToken := .null })) =
        some { accessToken := .str "A\"1", refreshToken := .null } :=
  setTokens_getTokens sampleFresh { accessToken := .str "A\"1", refreshToken := .null }
    (Or.inr ⟨"A\"1", rfl⟩) (Or.inl rfl)

/-- C15. Login does not store the pair where the session client reads it:
`AuthContext.setTokens` writes the keys `accessToken` and `refreshToken`,
never `auth_tokens`. After a login with access token `A` and refresh token
`R` over an empty store, `getTokens` of `lib/api.js` returns
`{ accessToken: null, refreshToken: null }`. -/
theorem login_not_seen_by_getTokens :
    (AuthContext.login sampleFresh
        { accessToken := .str "A", refreshToken := .str "R" }).localStorage =
        { auth_tokens := none, accessToken := some "A", refreshToken := some "R" } ∧
      getTokens (AuthContext.login sampleFresh
        { accessToken := .str "A", refreshToken := .str "R" }).localStorage =
        { accessToken := .null, refreshToken := .null } ∧
      ∀ (st : ClientState) (data : LoginData),
        (AuthContext.login st data).localStorage.auth_tokens = st.localStorage.auth_tokens := by
  refine ⟨by decide, by decide, ?_⟩
  intro st data
  simp only [AuthContext.login, AuthContext.setTokens, AuthContext.setAuthHeader]
  split <;> split <;> split <;> rfl

/-- C16. Logout does not delete the pair of the session client:
`AuthContext.clearTokens` removes the keys `accessToken` and `refreshToken`
and the default header, and leaves `auth_tokens` as it was. After a login, a
token refresh that stored `{ accessToken: A2, refreshToken: R }` and a logout,
`getTokens` of `lib/api.js` still returns that pair. -/
theorem logout_keeps_auth_tokens :
    getTokens (AuthContext.logout
        (refreshFulfilled
          (responseRejected
            (AuthContext.login sampleIdle { accessToken := .str "A1", refreshToken := .str "R1" })
            (sample401 "/a" false)).1
          (sampleRequest "/a" true) (.str "R")
          { accessToken := .str "A2", refreshToken := .undefined })).localStorage =
        { accessToken := .str "A2", refreshToken := .str "R" } ∧
      (responseRejected
          (AuthContext.login sampleIdle { accessToken := .str "A1", refreshToken := .str "R1" })
          (sample401 "/a" false)).2 = .awaitingRefresh (sampleRequest "/a" true) (.str "R") ∧
      ∀ st : ClientState,
        (AuthContext.logout st).localStorage =
            { auth_tokens := st.localStorage.auth_tokens, accessToken := none,
              refreshToken := none } ∧
          (AuthContext.logout st).defaultAuthorization = none :=
  ⟨by decide, by decide, fun _ => ⟨rfl, rfl⟩⟩

/-! ## Session client: the outcomes of a refresh -/

/-- C17. A 401 on a not-yet-retried request when `getTokens()` has no refresh
token: the interceptor clears the token pair (the item `auth_tokens` and the
default `Authorization` header are removed, so `getTokens()` gives the null
pair afterwards) and rejects with the error it received, whose config now
carries the mark `_retry`; it adds no refresh call and no replay and leaves
`isRefreshing` and the queue as they were. -/
theorem responseRejected_no_refresh_token (st : ClientState) (error : AxiosError)
    (h401 : error.response.map Response.status = some 401)
    (hnew : error.config._retry = false)
    (hnone : truthy (getTokens st.localStorage).refreshToken = false) :
    (responseRejected st error).2 =
        .rejected { response := error.response, config := markRetried error.config } ∧
      (responseRejected st error).1.localStorage =
        { st.localStorage with auth_tokens := none } ∧
      getTokens (responseRejected st error).1.localStorage =
        { accessToken := .null, refreshToken := .null } ∧
      (responseRejected st error).1.defaultAuthorization = none ∧
      (responseRejected st error).1.refreshCalls = st.refreshCalls ∧
      (responseRejected st error).1.replayed = st.replayed ∧
      (responseRejected st error).1.isRefreshing = st.isRefreshing ∧
      (responseRejected st error).1.refreshQueue = st.refreshQueue := by
  cases hx : error.response with
  | none => simp [hx] at h401
  | some r =>
    have hr : r.status = 401 := by simpa [hx] using h401
    have hstep : responseRejected st error =
        (clearTokens st, .rejected { error with config := markRetried error.config }) := by
      simp [responseRejected, hx, hr, hnew, hnone]
    rw [hstep]
    refine ⟨?_, rfl, rfl, rfl, rfl, rfl, rfl, rfl⟩
    simp [hx]

theorem responseRejected_no_refresh_token_witness :
    (responseRejected
        (AuthContext.login sampleFresh { accessToken := .str "A", refreshToken := .str "R" })
        (sample401 "/a" false)).2 =
      .rejected { response := some { status := 401 }, config := sampleRequest "/a" true } :=
  (responseRejected_no_refresh_token
    (AuthContext.login sampleFresh { accessToken := .str "A", refreshToken := .str "R" })
    (sample401 "/a" false) rfl rfl rfl).1

/-- C18. A successful refresh that returns access token `A'` and body field
`refreshToken = R'`, in an invocation that had read refresh token `R`: the
stored pair becomes `{ A', R' }` when `R'` is provided (truthy) and
`{ A', R }` when it is not; the original request and then every queued
continuation, in queue order, are replayed with `Authorization` set to
`Bearer A'`; no continuation is rejected. -/
theorem refreshFulfilled_persists (st : ClientState) (config : RequestConfig) (R : JSVal)
    (data : RefreshData) (A' : String) (hA : data.accessToken = .str A') :
    getTokens (refreshFulfilled st config R data).localStorage =
        { accessToken := .str A',
          refreshToken := if truthy data.refreshToken then data.refreshToken else R } ∧
      (refreshFulfilled st config R data).replayed =
        st.replayed ++ (config :: st.refreshQueue).map
          (fun c => { c with authorization := some ("Bearer " ++ A') }) ∧
      (refreshFulfilled st config R data).queueRejected = st.queueRejected ∧
      (refreshFulfilled st config R data).refreshCalls = st.refreshCalls := by
  have hs := setTokens_spec st
    { accessToken := data.accessToken, refreshToken := jsOr data.refreshToken R }
  refine ⟨?_, ?_, ?_, ?_⟩
  · show getTokens (setTokens st _).localStorage = _
    rw [hs.1, hA]
    rfl
  · show (setTokens st _).replayed ++ replayWith config data.accessToken ::
        (setTokens st _).refreshQueue.map (fun c => replayWith c data.accessToken) = _
    rw [hs.2.2.2.2.1, hs.2.2.1, hA]
    rfl
  · exact hs.2.2.2.2.2
  · exact hs.2.2.2.1

theorem refreshFulfilled_persists_witness :
    getTokens (refreshFulfilled
        (handleAll sampleIdle [sample401 "/a" false, sample401 "/b" false]).1
        (sampleRequest "/a" true) (.str "R")
        { accessToken := .str "A2", refreshToken := .undefined }).localStorage =
      { accessToken := .str "A2",
        refreshToken := if truthy .undefined then .undefined else .str "R" } ∧
    getTokens (refreshFulfilled
        (handleAll sampleIdle [sample401 "/a" false, sample401 "/b" false]).1
        (sampleRequest "/a" true) (.str "R")
        { accessToken := .str "A2", refreshToken := .str "R2" }).localStorage =
      { accessToken := .str "A2", refreshToken := .str "R2" } :=
  ⟨(refreshFulfilled_persists
      (handleAll sampleIdle [sample401 "/a" false, sample401 "/b" false]).1
      (sampleRequest "/a" true) (.str "R")
      { accessToken := .str "A2", refreshToken := .undefined } "A2" rfl).1,
    by decide⟩

/-- C19. A failed refresh call with error `e`: every queued continuation is
rejected with `e`, in queue order; the token pair is cleared, so `getTokens()`
gives the null pair and the default `Authorization` header is removed; the
interceptor rejects with `e`; nothing is replayed and no refresh call is
added. -/
theorem refreshRejected_clears (st : ClientState) (e : AxiosError) :
    (refreshRejected st e).2 = .rejected e ∧
      (refreshRejected st e).1.queueRejected =
        st.queueRejected ++ st.refreshQueue.map (fun c => (c, e)) ∧
      getTokens (refreshRejected st e).1.localStorage =
        { accessToken := .null, refreshToken := .null } ∧
      (refreshRejected st e).1.localStorage = { st.localStorage with auth_tokens := none } ∧
      (refreshRejected st e).1.defaultAuthorization = none ∧
      (refreshRejected st e).1.replayed = st.replayed ∧
      (refreshRejected st e).1.refreshCalls = st.refreshCalls :=
  ⟨rfl, rfl, rfl, rfl, rfl, rfl, rfl⟩

theorem responseRejected_queue_invariant (st : ClientState) (error : AxiosError)
    (hinv : st.isRefreshing = false → st.refreshQueue = []) :
    (responseRejected st error).1.isRefreshing = false →
      (responseRejected st error).1.refreshQueue = [] := by
  unfold responseRejected
  cases error.response with
  | none => exact hinv
  | some r =>
    simp only
    split
    · split
      · exact hinv
      · split
        · rename_i hbusy
          intro hidle
          simp only at hidle
          rw [hbusy] at hidle
          cases hidle
        · intro hidle
          cases hidle
    · exact hinv

theorem authSetTokens_frame (st : ClientState) (t : Tokens) :
    (AuthContext.setTokens st t).isRefreshing = st.isRefreshing ∧
      (AuthContext.setTokens st t).refreshQueue = st.refreshQueue := by
  simp only [AuthContext.setTokens, AuthContext.setAuthHeader]
  split <;> exact ⟨rfl, rfl⟩

theorem reachable_queue_invariant (st : ClientState) (h : Reachable st) :
    st.isRefreshing = false → st.refreshQueue = [] := by
  induction h with
  | loaded ls header => exact fun _ => rfl
  | rejected st error _ ih => exact responseRejected_queue_invariant st error ih
  | fulfilled st config refreshToken data _ _ => exact fun _ => rfl
  | failed st e _ _ => exact fun _ => rfl
  | login st data _ ih =>
    intro hidle
    have hf := authSetTokens_frame st
      { accessToken := jsOr (jsOr data.accessToken data.token) data.access_token,
        refreshToken := jsOr (jsOr data.refreshToken data.refresh_token) .null }
    show (AuthContext.setTokens st _).refreshQueue = []
    rw [hf.2]
    apply ih
    rw [← hf.1]
    exact hidle
  | logout st _ ih => exact ih

/-- C20. In every reachable state of the session client, `isRefreshing = false`
implies that `refreshQueue` is empty. When a refresh settles from such a
state, by success or by failure, `isRefreshing` is false and the queue is
empty afterwards, and every continuation that was in the queue is settled
once, in queue order: on success each is resolved (its request is replayed
after the original one, and none is rejected), on failure each is rejected
with the error (and none is replayed). -/
theorem refresh_settles_queue (st : ClientState) (h : Reachable st) :
    (st.isRefreshing = false → st.refreshQueue = []) ∧
      (∀ (config : RequestConfig) (refreshToken : JSVal) (data : RefreshData),
        (refreshFulfilled st config refreshToken data).isRefreshing = false ∧
          (refreshFulfilled st config refreshToken data).refreshQueue = [] ∧
          (refreshFulfilled st config refreshToken data).replayed =
            st.replayed ++ replayWith config data.accessToken ::
              st.refreshQueue.map (fun c => replayWith c data.accessToken) ∧
          (refreshFulfilled st config refreshToken data).queueRejected = st.queueRejected) ∧
      ∀ e : AxiosError,
        (refreshRejected st e).1.isRefreshing = false ∧
          (refreshRejected st e).1.refreshQueue = [] ∧
          (refreshRejected st e).1.queueRejected =
            st.queueRejected ++ st.refreshQueue.map (fun c => (c, e)) ∧
          (refreshRejected st e).1.replayed = st.replayed := by
  refine ⟨reachable_queue_invariant st h, ?_, fun e => ⟨rfl, rfl, rfl, rfl⟩⟩
  intro config refreshToken data
  have hs := setTokens_spec st
    { accessToken := data.accessToken, refreshToken := jsOr data.refreshToken refreshToken }
  refine ⟨rfl, rfl, ?_, hs.2.2.2.2.2⟩
  show (setTokens st _).replayed ++ replayWith config data.accessToken ::
      (setTokens st _).refreshQueue.map (fun c => replayWith c data.accessToken) = _
  rw [hs.2.2.2.2.1, hs.2.2.1]

theorem refresh_settles_queue_witness :
    (handleAll sampleIdle
        [sample401 "/a" false, sample401 "/b" false, sample401 "/c" false]).1.refreshQueue =
        [sampleRequest "/b" true, sampleRequest "/c" true] ∧
      (refreshRejected
          (handleAll sampleIdle
            [sample401 "/a" false, sample401 "/b" false, sample401 "/c" false]).1
          (sample401 "/api/auth/refresh" false)).1.queueRejected =
        [(sampleRequest "/b" true, sample401 "/api/auth/refresh" false),
          (sampleRequest "/c" true, sample401 "/api/auth/refresh" false)] :=
  have hreach : Reachable (handleAll sampleIdle
      [sample401 "/a" false, sample401 "/b" false, sample401 "/c" false]).1 :=
    Reachable.rejected _ (sample401 "/c" false)
      (Reachable.rejected _ (sample401 "/b" false)
        (Reachable.rejected _ (sample401 "/a" false)
          (Reachable.loaded sampleIdle.localStorage sampleIdle.defaultAuthorization)))
  ⟨by decide,
    ((refresh_settles_queue _ hreach).2.2 (sample401 "/api/auth/refresh" false)).2.2.1.trans
      (by decide)⟩

/-! ## Session client: errors that are passed through, and the replay -/

/-- C21. Transport failure. An error that carries no response is rejected as
it is, at once: the config is not marked as retried and the state of the
client is left as it was, so the token pair, `isRefreshing` and the queue are
unchanged and no refresh call or replay is added. -/
theorem responseRejected_no_response (st : ClientState) (error : AxiosError)
    (hnone : error.response = none) :
    responseRejected st error = (st, .rejected error) ∧
      (responseRejected st error).1.localStorage = st.localStorage ∧
      (responseRejected st error).1.defaultAuthorization = st.defaultAuthorization ∧
      (responseRejected st error).1.isRefreshing = st.isRefreshing ∧
      (responseRejected st error).1.refreshQueue = st.refreshQueue ∧
      (responseRejected st error).1.refreshCalls = st.refreshCalls ∧
      (responseRejected st error).1.replayed = st.replayed := by
  have hstep : responseRejected st error = (st, .rejected error) := by
    unfold responseRejected
    rw [hnone]
  rw [hstep]
  exact ⟨rfl, rfl, rfl, rfl, rfl, rfl, rfl⟩

theorem responseRejected_no_response_witness :
    responseRejected sampleIdle { response := none, config := sampleRequest "/a" false } =
      (sampleIdle, .rejected { response := none, config := sampleRequest "/a" false }) :=
  (responseRejected_no_response sampleIdle
    { response := none, config := sampleRequest "/a" false } rfl).1

/-- C22. A request replayed after a refresh keeps its method, url and body.
From a reachable idle state with a stored refresh token, let the requests of
`e :: es` get a 401 while not yet retried, the first one starting the refresh
and the others queued behind it. When the refresh succeeds, the configs
passed to `api(config)` are exactly the original configs, in order, each with
the same `method`, `url` and `data`, with `Authorization` set to
`Bearer <new access token>` and with the mark `_retry` set. -/
theorem replay_keeps_request (st : ClientState) (e : AxiosError) (es : List AxiosError)
    (data : RefreshData)
    (hreach : Reachable st)
    (hidle : st.isRefreshing = false)
    (hrt : truthy (getTokens st.localStorage).refreshToken = true)
    (h : ∀ x ∈ e :: es, x.response.map Response.status = some 401 ∧ x.config._retry = false) :
    (refreshFulfilled (handleAll st (e :: es)).1 (markRetried e.config)
        (getTokens st.localStorage).refreshToken data).replayed =
      st.replayed ++ (e :: es).map fun x =>
        { method := x.config.method, url := x.config.url, data := x.config.data,
          authorization := some ("Bearer " ++ jsString data.accessToken), _retry := true } := by
  have hq : st.refreshQueue = [] := reachable_queue_invariant st hreach hidle
  rw [handleAll_single_flight st e es hidle hrt h]
  have hs := setTokens_spec
    { st with
      isRefreshing := true
      refreshCalls := st.refreshCalls ++
        ["Bearer " ++ jsString (getTokens st.localStorage).refreshToken]
      refreshQueue := st.refreshQueue ++ es.map (fun x => markRetried x.config) }
    { accessToken := data.accessToken,
      refreshToken := jsOr data.refreshToken (getTokens st.localStorage).refreshToken }
  show (setTokens _ _).replayed ++ replayWith (markRetried e.config) data.accessToken ::
      (setTokens _ _).refreshQueue.map (fun c => replayWith c data.accessToken) = _
  rw [hs.2.2.2.2.1, hs.2.2.1]
  simp [hq, replayWith, markRetried, Function.comp_def]

theorem replay_keeps_request_witness :
    (refreshFulfilled
        (handleAll sampleIdle [sample401 "/a" false, sample401 "/b" false]).1
        (markRetried (sample401 "/a" false).config) (getTokens sampleIdle.localStorage).refreshToken
        { accessToken := .str "T", refreshToken := .undefined }).replayed =
      [{ method := "get", url := "/a", data := "", authorization := some "Bearer T",
          _retry := true },
        { method := "get", url := "/b", data := "", authorization := some "Bearer T",
          _retry := true }] :=
  (replay_keeps_request sampleIdle (sample401 "/a" false) [sample401 "/b" false]
    { accessToken := .str "T", refreshToken := .undefined }
    (Reachable.loaded sampleIdle.localStorage sampleIdle.defaultAuthorization) rfl rfl
    (by decide)).trans (by decide)

/-- C30. An error response whose status is not 401 is rejected as it is: the
config keeps its mark `_retry` as it was and the state of the client is left
as it was, so the stored token pair, the default `Authorization` header,
`isRefreshing` and the queue are unchanged and no refresh call or replay is
added. -/
theorem responseRejected_other_status (st : ClientState) (error : AxiosError) (r : Response)
    (hresp : error.response = some r) (hstatus : r.status ≠ 401) :
    responseRejected st error = (st, .rejected error) ∧
      (responseRejected st error).1.localStorage = st.localStorage ∧
      (responseRejected st error).1.defaultAuthorization = st.defaultAuthorization ∧
      (responseRejected st error).1.isRefreshing = st.isRefreshing ∧
      (responseRejected st error).1.refreshQueue = st.refreshQueue ∧
      (responseRejected st error).1.refreshCalls = st.refreshCalls ∧
      (responseRejected st error).1.replayed = st.replayed := by
  have hstep : responseRejected st error = (st, .rejected error) := by
    unfold responseRejected
    rw [hresp]
    simp [hstatus]
  rw [hstep]
  exact ⟨rfl, rfl, rfl, rfl, rfl, rfl, rfl⟩

theorem responseRejected_other_status_witness :
    responseRejected sampleIdle
        { response := some { status := 403 }, config := sampleRequest "/a" false } =
        (sampleIdle,
          .rejected { response := some { status := 403 }, config := sampleRequest "/a" false }) ∧
      responseRejected sampleIdle
        { response := some { status := 500 }, config := sampleRequest "/a" true } =
        (sampleIdle,
          .rejected { response := some { status := 500 }, config := sampleRequest "/a" true }) :=
  ⟨(responseRejected_other_status sampleIdle
      { response := some { status := 403 }, config := sampleRequest "/a" false }
      { status := 403 } rfl (by decide)).1,
    (responseRejected_other_status sampleIdle
      { response := some { status := 500 }, config := sampleRequest "/a" true }
      { status := 500 } rfl (by decide)).1⟩

/-! ## Session client: token response bodies and the login store -/

/-- C25. The login response is normalized, the refresh response is not. A
login body that carries the access token only as `token`, or only as
`access_token`, stores that value. A refresh body that carries it only as
`token` is read through `accessToken` alone: the stored access token is
`undefined`, the default header is removed and the request is replayed with
`Bearer undefined`. -/
theorem refresh_body_not_normalized :
    (AuthContext.login sampleFresh { token := .str "T" }).localStorage.accessToken = some "T" ∧
      (AuthContext.login sampleFresh { access_token := .str "T" }).localStorage.accessToken =
        some "T" ∧
      readRefreshBody { token := .str "T" } =
        { accessToken := .undefined, refreshToken := .undefined } ∧
      (getTokens (refreshFulfilled (responseRejected sampleIdle (sample401 "/a" false)).1
          (sampleRequest "/a" true) (.str "R")
          (readRefreshBody { token := .str "T" })).localStorage).accessToken = .undefined ∧
      (refreshFulfilled (responseRejected sampleIdle (sample401 "/a" false)).1
          (sampleRequest "/a" true) (.str "R")
          (readRefreshBody { token := .str "T" })).defaultAuthorization = none ∧
      (refreshFulfilled (responseRejected sampleIdle (sample401 "/a" false)).1
          (sampleRequest "/a" true) (.str "R")
          (readRefreshBody { token := .str "T" })).replayed =
        [{ sampleRequest "/a" true with authorization := some "Bearer undefined" }] := by
  decide

theorem responseRejected_clear_step (st : ClientState) (error : AxiosError)
    (h401 : error.response.map Response.status = some 401)
    (hnew : error.config._retry = false)
    (hnone : truthy (getTokens st.localStorage).refreshToken = false) :
    responseRejected st error =
      (clearTokens st, .rejected { error with config := markRetried error.config }) := by
  cases hx : error.response with
  | none => simp [hx] at h401
  | some r =>
    have hr : r.status = 401 := by simpa [hx] using h401
    simp [responseRejected, hx, hr, hnew, hnone]

theorem authLogin_auth_tokens (st : ClientState) (data : LoginData) :
    (AuthContext.login st data).localStorage.auth_tokens = st.localStorage.auth_tokens ∧
      (AuthContext.login st data).refreshCalls = st.refreshCalls ∧
      (AuthContext.login st data).replayed = st.replayed := by
  simp only [AuthContext.login, AuthContext.setTokens, AuthContext.setAuthHeader]
  split <;> split <;> split <;> exact ⟨rfl, rfl, rfl⟩

/-- C27. Refresh is unreachable after a normal login. In a store where
`auth_tokens` is unset, after `login` has stored the tokens of any login
response through `AuthContext.setTokens` (which writes the keys `accessToken`
and `refreshToken` only), `getTokens()` of the session client returns the null
pair; so a 401 on a not-yet-retried request issues no refresh call and no
replay and is rejected with the error it received, its config marked
`_retry`. -/
theorem refresh_unreachable_after_login (st : ClientState) (data : LoginData)
    (error : AxiosError)
    (hunset : st.localStorage.auth_tokens = none)
    (h401 : error.response.map Response.status = some 401)
    (hnew : error.config._retry = false) :
    getTokens (AuthContext.login st data).localStorage =
        { accessToken := .null, refreshToken := .null } ∧
      (responseRejected (AuthContext.login st data) error).2 =
        .rejected { response := error.response, config := markRetried error.config } ∧
      (responseRejected (AuthContext.login st data) error).1.refreshCalls = st.refreshCalls ∧
      (responseRejected (AuthContext.login st data) error).1.replayed = st.replayed ∧
      (responseRejected (AuthContext.login st data) error).1.isRefreshing = st.isRefreshing := by
  have hl := authLogin_auth_tokens st data
  have hget : getTokens (AuthContext.login st data).localStorage =
      { accessToken := .null, refreshToken := .null } := by
    unfold getTokens
    rw [hl.1, hunset]
  have hnone : truthy (getTokens (AuthContext.login st data).localStorage).refreshToken =
      false := by
    rw [hget]
    rfl
  have hflag : (AuthContext.login st data).isRefreshing = st.isRefreshing :=
    (authSetTokens_frame st _).1
  rw [responseRejected_clear_step _ error h401 hnew hnone]
  exact ⟨hget, rfl, hl.2.1, hl.2.2, hflag⟩

theorem refresh_unreachable_after_login_witness :
    (AuthContext.login sampleFresh
        { accessToken := .str "A", refreshToken := .str "R" }).localStorage =
        { auth_tokens := none, accessToken := some "A", refreshToken := some "R" } ∧
      (responseRejected
        (AuthContext.login sampleFresh { accessToken := .str "A", refreshToken := .str "R" })
        (sample401 "/a" false)).2 =
        .rejected { response := (sample401 "/a" false).response,
                    config := markRetried (sample401 "/a" false).config } ∧
      (responseRejected
        (AuthContext.login sampleFresh { accessToken := .str "A", refreshToken := .str "R" })
        (sample401 "/a" false)).1.refreshCalls = sampleFresh.refreshCalls :=
  ⟨by decide,
    (refresh_unreachable_after_login sampleFresh
      { accessToken := .str "A", refreshToken := .str "R" } (sample401 "/a" false)
      rfl rfl rfl).2.1,
    (refresh_unreachable_after_login sampleFresh
      { accessToken := .str "A", refreshToken := .str "R" } (sample401 "/a" false)
      rfl rfl rfl).2.2.1⟩

/-! ## Schedule-conflict detector: degenerate blocks, id precedence, self conflict -/

theorem schedulesOverlap_self (a : MeetingBlock) :
    schedulesOverlap a a = true ↔
      ∃ s e, toMinutes a.startTime = some s ∧ toMinutes a.endTime = some e ∧ s < e := by
  rw [schedulesOverlap_eq]
  cases hs : toMinutes a.startTime with
  | none => simp
  | some s =>
    cases he : toMinutes a.endTime with
    | none => simp
    | some e => simp

theorem schedulesOverlap_degenerate (a b : MeetingBlock) (s e : Int)
    (hs : toMinutes a.startTime = some s) (he : toMinutes a.endTime = some e) (hge : e ≤ s) :
    schedulesOverlap a b = false := by
  rw [schedulesOverlap_eq, hs, he]
  cases toMinutes b.startTime <;> cases toMinutes b.endTime <;> simp
  intro _
  omega

/-- C26. Id takes precedence over code. When the term of the existing
offering and the term of the candidate both have an id (`id ?? termId` is not
nullish), the same-term filter returns `String(idA) === String(idB)` and does
not look at the codes: equal ids with different codes match, different ids
with equal codes do not. -/
theorem sameTerm_id_precedence (target d : Offering)
    (hA : isNullish (jsCoalesce (termField d.term Term.id) (termField d.term Term.termId)) = false)
    (hB : isNullish (jsCoalesce (termField target.term Term.id)
      (termField target.term Term.termId)) = false) :
    sameTerm target (some d) =
        (jsString (jsCoalesce (termField d.term Term.id) (termField d.term Term.termId)) ==
          jsString (jsCoalesce (termField target.term Term.id)
            (termField target.term Term.termId))) ∧
      sameTerm { term := some { id := .num 7, code := .str "FALL24" } }
        (some { term := some { id := .str "7", code := .str "SPRING25" } }) = true ∧
      sameTerm { term := some { id := .num 7, code := .str "FALL24" } }
        (some { term := some { id := .num 8, code := .str "FALL24" } }) = false := by
  refine ⟨?_, by decide, by decide⟩
  have hA' : isNullish (jsCoalesce (termField ((some d).bind Offering.term) Term.id)
      (termField ((some d).bind Offering.term) Term.termId)) = false := hA
  simp only [sameTerm, hA', hB]
  rfl

theorem sameTerm_id_precedence_witness :
    sameTerm { term := some { id := .num 7, code := .str "FALL24" } }
        (some { term := some { termId := .str "7", code := .str "SPRING25" } }) =
      (jsString (jsCoalesce
          (termField (some ({ termId := .str "7", code := .str "SPRING25" } : Term)) Term.id)
          (termField (some ({ termId := .str "7", code := .str "SPRING25" } : Term)) Term.termId)) ==
        jsString (jsCoalesce
          (termField (some ({ id := .num 7, code := .str "FALL24" } : Term)) Term.id)
          (termField (some ({ id := .num 7, code := .str "FALL24" } : Term)) Term.termId))) :=
  (sameTerm_id_precedence { term := some { id := .num 7, code := .str "FALL24" } }
    { term := some { termId := .str "7", code := .str "SPRING25" } } rfl rfl).1

/-- C28. A degenerate block never conflicts. A block whose start, in minutes,
is at or after its end overlaps no block, in either argument order; and a
block overlaps itself exactly when its start and end are both present and the
start is strictly before the end. -/
theorem schedulesOverlap_degenerate_block (a b : MeetingBlock) (s e : Int)
    (hs : toMinutes a.startTime = some s) (he : toMinutes a.endTime = some e) (hge : e ≤ s) :
    schedulesOverlap a b = false ∧ schedulesOverlap b a = false ∧
      schedulesOverlap a a = false ∧
      ∀ x : MeetingBlock, schedulesOverlap x x = true ↔
        ∃ s' e', toMinutes x.startTime = some s' ∧ toMinutes x.endTime = some e' ∧ s' < e' := by
  refine ⟨schedulesOverlap_degenerate a b s e hs he hge, ?_,
    schedulesOverlap_degenerate a a s e hs he hge, schedulesOverlap_self⟩
  rw [schedulesOverlap_eq, hs, he]
  cases toMinutes b.startTime <;> cases toMinutes b.endTime <;> simp
  intro _
  omega

theorem schedulesOverlap_degenerate_block_witness :
    schedulesOverlap (block "MONDAY" "10:00" "10:00") (block "MONDAY" "09:00" "11:00") = false ∧
      schedulesOverlap (block "MONDAY" "11:00" "09:00") (block "MONDAY" "09:00" "11:00") =
        false :=
  ⟨(schedulesOverlap_degenerate_block (block "MONDAY" "10:00" "10:00")
      (block "MONDAY" "09:00" "11:00") 600 600 (by decide) (by decide) (by decide)).1,
    (schedulesOverlap_degenerate_block (block "MONDAY" "11:00" "09:00")
      (block "MONDAY" "09:00" "11:00") 660 540 (by decide) (by decide) (by decide)).1⟩

theorem sameTerm_self (target : Offering)
    (hterm : isNullish (jsCoalesce (termField target.term Term.id)
        (termField target.term Term.termId)) = false ∨
      truthy (termField target.term Term.code) = true) :
    sameTerm target (some target) = true := by
  have hbind : (some target).bind Offering.term = target.term := rfl
  simp only [sameTerm, hbind]
  cases hid : isNullish (jsCoalesce (termField target.term Term.id)
      (termField target.term Term.termId)) with
  | false => simp
  | true =>
    rcases hterm with h | h
    · rw [hid] at h
      cases h
    · simp [h]

/-- C29. The candidate is not excluded from the existing enrollments. When
the candidate offering loads, the enrollment list contains an enrollment whose
offering id is the candidate's id, the candidate's term has an id or a code,
and the candidate has a meeting block whose start is strictly before its end,
`hasScheduleConflict` resolves with true: the offering conflicts with itself. -/
theorem hasScheduleConflict_self (api : Backend) (cache : OfferingCache)
    (targetId : JSVal) (target : Offering) (es : List Enrollment) (e : Enrollment)
    (ts : MeetingBlock) (s t : Int)
    (htarget : (ensureOfferingDetail api cache targetId).2 = some target)
    (hmine : api.listMyEnrollments = .items es)
    (he : e ∈ es) (hid : enrollmentOfferingId e = targetId)
    (hterm : isNullish (jsCoalesce (termField target.term Term.id)
        (termField target.term Term.termId)) = false ∨
      truthy (termField target.term Term.code) = true)
    (hts : ts ∈ target.schedules.getD [])
    (hs : toMinutes ts.startTime = some s) (ht : toMinutes ts.endTime = some t)
    (hlt : s < t) :
    (hasScheduleConflict api cache targetId).2 = some true := by
  rw [hasScheduleConflict_loaded api cache targetId target es htarget hmine]
  have htruthy : truthy targetId = true := by
    cases htr : truthy targetId with
    | true => rfl
    | false =>
      rw [ensureOfferingDetail_falsy api cache _ htr] at htarget
      cases htarget
  have hmem : some target ∈
      (((es.map enrollmentOfferingId).filter truthy).map
        (fun id => (ensureOfferingDetail api cache id).2)).filter (sameTerm target) := by
    refine List.mem_filter.mpr ⟨List.mem_map.mpr ⟨targetId, ?_, htarget⟩,
      sameTerm_self target hterm⟩
    exact List.mem_filter.mpr ⟨List.mem_map.mpr ⟨e, he, hid⟩, htruthy⟩
  have hov : schedulesOverlap ts ts = true :=
    (schedulesOverlap_self ts).mpr ⟨s, t, hs, ht, hlt⟩
  have hany := (anyOverlap_eq_true_iff target _).mpr ⟨target, hmem, ts, hts, ts, hts, hov⟩
  rw [hany]

theorem hasScheduleConflict_self_witness :
    (hasScheduleConflict (sampleBackend "FALL24" [{ offeringId := .num 2 }]) [] (.num 2)).2 =
      some true :=
  hasScheduleConflict_self (sampleBackend "FALL24" [{ offeringId := .num 2 }]) [] (.num 2)
    (sampleCandidate "FALL24") [{ offeringId := .num 2 }] { offeringId := .num 2 }
    (block "MONDAY" "10:00" "11:00") 600 660 rfl rfl (by simp) rfl (Or.inr (by decide))
    (by simp [sampleCandidate]) (by decide) (by decide) (by decide)

/-! ## Enrollment: the eligibility gate and `handleEnroll` -/

/-- C23, as stated, fails: the status `in-progress` is one of `open`,
`enrolling`, `in-progress` ignoring letter case, and the term status
`ENROLLING` is neither `completed` nor `archived`, yet the gate is false,
because `offeringOpen` looks for `IN_PROGRESS`. -/
theorem gate_rejects_hyphenated_status :
    toUpperCase "in-progress" ∈ ["open", "enrolling", "in-progress"].map toUpperCase ∧
      toUpperCase "ENROLLING" ∉ ["completed", "archived"].map toUpperCase ∧
      (termIsActive (.str "ENROLLING") &&
        offeringOpen (some { status := .str "in-progress" })) = false ∧
      (termIsActive (.str "ENROLLING") &&
        offeringOpen (some { status := .str "in_progress" })) = true := by
  decide

theorem handleEnroll_gate_closed (api : Backend) (terms : List Term) (enrollSucceeds : Bool)
    (cache : OfferingCache) (offering : Offering)
    (hgate : (termIsActive (resolveTermStatus (some offering) (buildTermIndex terms)) &&
      offeringOpen (some offering)) = false) :
    (handleEnroll api terms enrollSucceeds cache offering).conflictCheck = none ∧
      (handleEnroll api terms enrollSucceeds cache offering).enrollCalls = [] ∧
      (handleEnroll api terms enrollSucceeds cache offering).cache = cache := by
  unfold handleEnroll
  by_cases hid : truthy offering.id = true
  · have hg : (!termIsActive (resolveTermStatus (some offering) (buildTermIndex terms)) ||
        !offeringOpen (some offering)) = true := by
      cases h1 : termIsActive (resolveTermStatus (some offering) (buildTermIndex terms)) <;>
        cases h2 : offeringOpen (some offering) <;> simp_all
    rw [if_neg (by simp [hid]), if_pos hg]
    exact ⟨rfl, rfl, rfl⟩
  · rw [if_pos (by simpa using hid)]
    exact ⟨rfl, rfl, rfl⟩

/-- C23, amended. The gate `termIsActive(st) && offeringOpen(o)` is true
exactly when `st`, upper-cased, is neither `COMPLETED` nor `ARCHIVED` and
`o.status`, upper-cased, is one of `OPEN`, `ENROLLING`, `IN_PROGRESS` (with an
underscore); and when the gate is false for the row given to `handleEnroll`,
it calls neither `hasScheduleConflict` nor `enrollInOffering` and loads
nothing into the cache. -/
theorem eligibility_gate (st : JSVal) (o : Offering) (api : Backend) (terms : List Term)
    (enrollSucceeds : Bool) (cache : OfferingCache) (offering : Offering)
    (hgate : (termIsActive (resolveTermStatus (some offering) (buildTermIndex terms)) &&
      offeringOpen (some offering)) = false) :
    ((termIsActive st && offeringOpen (some o)) = true ↔
        toUpperCase (jsString (jsOr st (.str ""))) ∉ ["COMPLETED", "ARCHIVED"] ∧
          toUpperCase (jsString (jsOr o.status (.str ""))) ∈
            ["OPEN", "ENROLLING", "IN_PROGRESS"]) ∧
      (handleEnroll api terms enrollSucceeds cache offering).conflictCheck = none ∧
      (handleEnroll api terms enrollSucceeds cache offering).enrollCalls = [] ∧
      (handleEnroll api terms enrollSucceeds cache offering).cache = cache := by
  refine ⟨?_, handleEnroll_gate_closed api terms enrollSucceeds cache offering hgate⟩
  simp [termIsActive, offeringOpen]

theorem eligibility_gate_witness :
    ((termIsActive (.str "Enrolling") && offeringOpen (some { status := .str "open" })) = true ↔
        toUpperCase (jsString (jsOr (.str "Enrolling") (.str ""))) ∉ ["COMPLETED", "ARCHIVED"] ∧
          toUpperCase (jsString (jsOr (JSVal.str "open") (.str ""))) ∈
            ["OPEN", "ENROLLING", "IN_PROGRESS"]) ∧
      (handleEnroll (sampleBackend "FALL24" [{ offeringId := .num 1 }]) [] true []
        { sampleRow "FALL24" with status := .str "CLOSED" }).enrollCalls = [] :=
  ⟨(eligibility_gate (.str "Enrolling") { status := .str "open" }
      (sampleBackend "FALL24" [{ offeringId := .num 1 }]) [] true []
      { sampleRow "FALL24" with status := .str "CLOSED" } (by decide)).1,
    (eligibility_gate (.str "Enrolling") { status := .str "open" }
      (sampleBackend "FALL24" [{ offeringId := .num 1 }]) [] true []
      { sampleRow "FALL24" with status := .str "CLOSED" } (by decide)).2.2.1⟩

theorem handleEnroll_gate_open (api : Backend) (terms : List Term) (enrollSucceeds : Bool)
    (cache : OfferingCache) (offering : Offering)
    (hid : truthy offering.id = true)
    (hgate : (termIsActive (resolveTermStatus (some offering) (buildTermIndex terms)) &&
      offeringOpen (some offering)) = true) :
    handleEnroll api terms enrollSucceeds cache offering =
      match (hasScheduleConflict api (ensureOfferingDetail api cache offering.id).1
          offering.id).2 with
      | none =>
        { cache := (hasScheduleConflict api (ensureOfferingDetail api cache offering.id).1
            offering.id).1,
          conflictCheck := some none, enrollCalls := [], notice := some .failed }
      | some true =>
        { cache := (hasScheduleConflict api (ensureOfferingDetail api cache offering.id).1
            offering.id).1,
          conflictCheck := some (some true), enrollCalls := [], notice := some .conflict }
      | some false =>
        { cache := (hasScheduleConflict api (ensureOfferingDetail api cache offering.id).1
            offering.id).1,
          conflictCheck := some (some false), enrollCalls := [offering.id],
          notice := some (if enrollSucceeds then .enrolled else .failed) } := by
  have hg : ¬ (!termIsActive (resolveTermStatus (some offering) (buildTermIndex terms)) ||
      !offeringOpen (some offering)) = true := by
    cases h1 : termIsActive (resolveTermStatus (some offering) (buildTermIndex terms)) <;>
      cases h2 : offeringOpen (some offering) <;> simp_all
  unfold handleEnroll
  rw [if_neg (by simp [hid]), if_neg hg]

/-- C24. For an offering row that passes the eligibility gate, `handleEnroll`
calls `enrollInOffering(offering.id)` exactly once when its call of
`hasScheduleConflict(offering.id)` resolves with false and does not call it
when that call resolves with true; for a row with an id, that call is made on
the cache left by `ensureOfferingDetail(offering.id)`. -/
theorem handleEnroll_enrolls_iff_no_conflict (api : Backend) (terms : List Term)
    (enrollSucceeds : Bool) (cache : OfferingCache) (offering : Offering)
    (hgate : (termIsActive (resolveTermStatus (some offering) (buildTermIndex terms)) &&
      offeringOpen (some offering)) = true) :
    ((handleEnroll api terms enrollSucceeds cache offering).conflictCheck = some (some false) →
        (handleEnroll api terms enrollSucceeds cache offering).enrollCalls = [offering.id]) ∧
      ((handleEnroll api terms enrollSucceeds cache offering).conflictCheck = some (some true) →
        (handleEnroll api terms enrollSucceeds cache offering).enrollCalls = []) ∧
      (truthy offering.id = true →
        (handleEnroll api terms enrollSucceeds cache offering).conflictCheck =
          some (hasScheduleConflict api (ensureOfferingDetail api cache offering.id).1
            offering.id).2) := by
  by_cases hid : truthy offering.id = true
  · rw [handleEnroll_gate_open api terms enrollSucceeds cache offering hid hgate]
    cases hres : (hasScheduleConflict api (ensureOfferingDetail api cache offering.id).1
        offering.id).2 with
    | none => simp
    | some b => cases b <;> simp
  · have hrun : handleEnroll api terms enrollSucceeds cache offering =
        { cache := cache, conflictCheck := none, enrollCalls := [], notice := none } := by
      unfold handleEnroll
      rw [if_pos (by simpa using hid)]
    rw [hrun]
    simp [hid]

theorem handleEnroll_enrolls_iff_no_conflict_witness :
    (handleEnroll (sampleBackend "FALL24" [{ offeringId := .num 1 }]) [] true []
        (sampleRow "FALL24")).conflictCheck = some (some true) ∧
      (handleEnroll (sampleBackend "FALL24" [{ offeringId := .num 1 }]) [] true []
        (sampleRow "FALL24")).enrollCalls = [] ∧
      (handleEnroll (sampleBackend "SPRING25" [{ offeringId := .num 1 }]) [] true []
        (sampleRow "SPRING25")).conflictCheck = some (some false) ∧
      (handleEnroll (sampleBackend "SPRING25" [{ offeringId := .num 1 }]) [] true []
        (sampleRow "SPRING25")).enrollCalls = [.num 2] :=
  ⟨by decide,
    (handleEnroll_enrolls_iff_no_conflict (sampleBackend "FALL24" [{ offeringId := .num 1 }])
      [] true [] (sampleRow "FALL24") (by decide)).2.1 (by decide),
    by decide,
    (handleEnroll_enrolls_iff_no_conflict (sampleBackend "SPRING25" [{ offeringId := .num 1 }])
      [] true [] (sampleRow "SPRING25") (by decide)).1 (by decide)⟩

end CourseMgmt
